import Mathlib

/-!
Verification of the wrk-log summarisation and evaluation pipeline of the
`go-http-server` benchmark project.

The embedding mirrors the Python sources:
  * `workloads/basic-workload-summary.py` — unit parsers, worker-log reader,
    aggregated-log splitter, run scorer;
  * `workloads/per-connection-workload-summary.py` — per-connection summary
    arithmetic;
  * `openevolve_eval.py` — the `evaluate` orchestration.

Modelling conventions:
  * strings are `List Char` (`Str`); `str.lower()` / `str.strip()` /
    `str.split()` are modelled for ASCII input, which is all the parsers
    ever receive from the load generator;
  * Python floats are modelled as exact rationals (`ℚ`); every numeric fact
    stated below is exact in both models;
  * a Python function that can raise `ValueError` returns `Except Err _`,
    with one `Err` constructor per distinct error condition.
-/

namespace S2P

abbrev Str := List Char

/-- Distinct `ValueError` conditions raised by the Python sources
(the names follow the spec's error taxonomy). -/
inductive Err where
  | formatErr : Err
  | missingFields : List Str → Err
  | structureErr : Err
  | emptyResult : Err
  | emptyInput : Err
  | divisionErr : Err
  | valueErr : Err
  deriving DecidableEq, Repr

instance {ε α : Type} [DecidableEq ε] [DecidableEq α] : DecidableEq (Except ε α)
  | .error a, .error b =>
      if h : a = b then .isTrue (by rw [h])
      else .isFalse (by intro hc; cases hc; exact h rfl)
  | .error _, .ok _ => .isFalse (by intro h; cases h)
  | .ok _, .error _ => .isFalse (by intro h; cases h)
  | .ok a, .ok b =>
      if h : a = b then .isTrue (by rw [h])
      else .isFalse (by intro hc; cases hc; exact h rfl)

/-- ASCII model of `str.lower()` on one character. -/
def lowerChar (c : Char) : Char :=
  if 65 ≤ c.toNat ∧ c.toNat ≤ 90 then Char.ofNat (c.toNat + 32) else c

/-- ASCII model of `str.lower()`. -/
def lowerStr (s : Str) : Str := s.map lowerChar

/-- Character class `[0-9]`. -/
def isDigitC (c : Char) : Bool := 48 ≤ c.toNat ∧ c.toNat ≤ 57

/-- Character class `[a-z]`. -/
def isLowerAlpha (c : Char) : Bool := 97 ≤ c.toNat ∧ c.toNat ≤ 122

/-- ASCII whitespace, as recognised by `str.strip()` / `str.split()`. -/
def isSpaceC (c : Char) : Bool :=
  c.toNat = 32 ∨ (9 ≤ c.toNat ∧ c.toNat ≤ 13)

/-- Model of `str.strip()`: drop leading and trailing whitespace. -/
def stripStr (s : Str) : Str :=
  ((s.dropWhile isSpaceC).reverse.dropWhile isSpaceC).reverse

/-- Model of `str.split()` (no argument): split on runs of whitespace,
discarding empty pieces. -/
def splitWS : Str → List Str
  | [] => []
  | c :: cs =>
    if isSpaceC c then splitWS cs
    else
      match splitWS cs with
      | [] => [[c]]
      | t :: ts =>
        match cs with
        | [] => [[c]]
        | d :: _ => if isSpaceC d then [c] :: t :: ts else (c :: t) :: ts

/-- Numeric value of a digit string (most significant first). -/
def digitsToNat (s : Str) : ℕ :=
  s.foldl (fun acc c => 10 * acc + (c.toNat - 48)) 0

/-- Does `s` match the regex number `[0-9]*\.?[0-9]+` —
i.e. `digits+` or `digits* "." digits+`?  The integer part is the maximal
leading digit run; what follows must be empty or a dot and a nonempty digit
run. -/
def numValid (s : Str) : Bool :=
  match s.dropWhile isDigitC with
  | [] => s ≠ []
  | '.' :: frac => frac ≠ [] && frac.all isDigitC
  | _ => false

/-- Exact rational value of a decimal literal accepted by `numValid`
(this is what Python's `float(...)` computes, up to rounding). -/
def decToRat (s : Str) : ℚ :=
  match s.dropWhile isDigitC with
  | [] => (digitsToNat s : ℚ)
  | '.' :: frac =>
      (digitsToNat (s.takeWhile isDigitC) : ℚ) +
        (digitsToNat frac : ℚ) / (10 : ℚ) ^ frac.length
  | _ => 0

/-- Lookup in `_LATENCY_UNITS_MS`: ms-per-unit conversion factors. -/
def latencyUnitFactor (unit : Str) : Option ℚ :=
  if unit = ['u', 's'] then some (1 / 1000)
  else if unit = ['m', 's'] then some 1
  else if unit = ['s'] then some 1000
  else none

/-- Lookup in `_THROUGHPUT_SUFFIXES`. -/
def throughputSuffixFactor (suffix : Str) : Option ℚ :=
  if suffix = [] then some 1
  else if suffix = ['k'] then some 1000
  else if suffix = ['m'] then some 1000000
  else if suffix = ['g'] then some 1000000000
  else none

/-- Split the (already lowercased) token as the regex
`([0-9]*\.?[0-9]+)([a-z]+)` would: the unit is the maximal trailing run of
lowercase letters, the number is everything before it.  Returns `none` when
the full match fails. -/
def latencyMatch (t : Str) : Option (Str × Str) :=
  if t.reverse.takeWhile isLowerAlpha = [] then none
  else if numValid (t.reverse.dropWhile isLowerAlpha).reverse then
    some ((t.reverse.dropWhile isLowerAlpha).reverse,
      (t.reverse.takeWhile isLowerAlpha).reverse)
  else none

/-- Model of `parse_latency` from `basic-workload-summary.py` (lines 90–98):
lowercase the token, full-match `([0-9]*\.?[0-9]+)([a-z]+)`, then convert
with `_LATENCY_UNITS_MS`. -/
def parse_latency (token : Str) : Except Err ℚ :=
  match latencyMatch (lowerStr token) with
  | none => .error .formatErr
  | some (numPart, unit) =>
    match latencyUnitFactor unit with
    | none => .error .formatErr
    | some f => .ok (decToRat numPart * f)

/-- Split the (already lowercased, stripped) token as the regex
`([0-9]*\.?[0-9]+)([kmg]?)` would: an optional single `k`/`m`/`g` suffix. -/
def throughputMatch (t : Str) : Option (Str × Str) :=
  match t.reverse with
  | c :: rest =>
    if c = 'k' ∨ c = 'm' ∨ c = 'g' then
      if numValid rest.reverse then some (rest.reverse, [c]) else none
    else if numValid t then some (t, []) else none
  | [] => none

/-- Model of `parse_throughput` from `basic-workload-summary.py` (lines 101–112):
strip the token, special-case textual NaN to `0.0`, otherwise full-match
`([0-9]*\.?[0-9]+)([kmg]?)` and scale with `_THROUGHPUT_SUFFIXES`. -/
def parse_throughput (token : Str) : Except Err ℚ :=
  if lowerStr (stripStr token) = ['n', 'a', 'n'] ∨
      lowerStr (stripStr token) = ['-', 'n', 'a', 'n'] ∨
      lowerStr (stripStr token) = ['+', 'n', 'a', 'n'] then .ok 0
  else
    match throughputMatch (lowerStr (stripStr token)) with
    | none => .error .formatErr
    | some (numPart, suffix) =>
      match throughputSuffixFactor suffix with
      | none => .error .formatErr
      | some f => .ok (decToRat numPart * f)

/-- The positive side of the latency token grammar, as a decidable check
over all split points of the lowercased token. -/
def latencyTokenForm (token : Str) : Bool :=
  (List.range ((lowerStr token).length + 1)).any fun i =>
    numValid ((lowerStr token).take i) &&
      ((latencyUnitFactor ((lowerStr token).drop i)).isSome)

/-- The positive side of the throughput token grammar (after stripping and
lowercasing): a textual NaN or a number with an optional `k`/`m`/`g`
suffix. -/
def throughputTokenForm (token : Str) : Bool :=
  decide (lowerStr (stripStr token) = "nan".data) ||
  decide (lowerStr (stripStr token) = "-nan".data) ||
  decide (lowerStr (stripStr token) = "+nan".data) ||
  (List.range ((lowerStr (stripStr token)).length + 1)).any fun i =>
    numValid ((lowerStr (stripStr token)).take i) &&
      ((throughputSuffixFactor ((lowerStr (stripStr token)).drop i)).isSome)

/-- State of the scan loop of `_extract_metrics_from_lines`: the four local
variables, each `None` until a matching line assigns it. -/
structure ExtractState where
  latency_avg_ms : Option ℚ := none
  latency_stdev_ms : Option ℚ := none
  req_avg : Option ℚ := none
  req_stdev : Option ℚ := none
  deriving DecidableEq, Repr

/-- One iteration of the `for raw_line in lines` loop of
`_extract_metrics_from_lines` (lines 59–72): strip the line, dispatch on the
`"Latency"` / `"Req/Sec"` prefix, skip lines with fewer than three
whitespace-separated tokens, otherwise parse tokens 1 and 2. -/
def extractStep (st : ExtractState) (rawLine : Str) : Except Err ExtractState :=
  if "Latency".data.isPrefixOf (stripStr rawLine) then
    match splitWS (stripStr rawLine) with
    | _ :: p1 :: p2 :: _ =>
      match parse_latency p1 with
      | .error e => .error e
      | .ok a =>
        match parse_latency p2 with
        | .error e => .error e
        | .ok b => .ok { st with latency_avg_ms := some a, latency_stdev_ms := some b }
    | _ => .ok st
  else if "Req/Sec".data.isPrefixOf (stripStr rawLine) then
    match splitWS (stripStr rawLine) with
    | _ :: p1 :: p2 :: _ =>
      match parse_throughput p1 with
      | .error e => .error e
      | .ok a =>
        match parse_throughput p2 with
        | .error e => .error e
        | .ok b => .ok { st with req_avg := some a, req_stdev := some b }
    | _ => .ok st
  else .ok st

/-- The whole scan loop of `_extract_metrics_from_lines`. -/
def extractScan (st : ExtractState) (lines : List Str) : Except Err ExtractState :=
  lines.foldlM extractStep st

/-- Names of the fields still unset after the scan, in the order the source
builds its `missing` list (lines 74–83). -/
def missingOf (st : ExtractState) : List Str :=
  (if st.latency_avg_ms = none then ["latency_avg".data] else []) ++
  (if st.latency_stdev_ms = none then ["latency_stdev".data] else []) ++
  (if st.req_avg = none then ["req_per_sec_avg".data] else []) ++
  (if st.req_stdev = none then ["req_per_sec_stdev".data] else [])

/-- The final missing-field check and return of `_extract_metrics_from_lines`
(lines 74–87). -/
def extractFinalize (st : ExtractState) : Except Err (ℚ × ℚ × ℚ × ℚ) :=
  match st.latency_avg_ms, st.latency_stdev_ms, st.req_avg, st.req_stdev with
  | some a, some b, some c, some d =>
      if missingOf st = [] then .ok (a, b, c, d) else .error (.missingFields (missingOf st))
  | _, _, _, _ => .error (.missingFields (missingOf st))

/-- Model of `_extract_metrics_from_lines` from `basic-workload-summary.py`
(lines 55–87): returns `(latency_avg_ms, latency_stdev_ms, req_avg, req_stdev)`
or raises. -/
def extract_metrics_from_lines (lines : List Str) : Except Err (ℚ × ℚ × ℚ × ℚ) :=
  match extractScan {} lines with
  | .error e => .error e
  | .ok st => extractFinalize st

/-- Does `name` decompose as `<prefix>wrk_client_<digits>.log` (the search for
`_WORKER_RE = wrk_client_(\d+)\.log$`)?  If so, return the digits.
The decomposition is unique when it exists: the digit run is the maximal digit
run ending right before the final `".log"`, and it must be directly preceded by
the literal `"wrk_client_"`. -/
def workerReSearch (name : Str) : Option Str :=
  let r := name.reverse
  if "gol.".data.isPrefixOf r then
    let core := r.drop 4
    let digitsRev := core.takeWhile isDigitC
    if digitsRev ≠ [] ∧ "_tneilc_krw".data.isPrefixOf (core.drop digitsRev.length) then
      some digitsRev.reverse
    else none
  else none

/-- Model of `PurePath.stem` (CPython): the name without its suffix, where the
suffix starts at the last `'.'` provided that dot is neither the first nor the
last character. -/
def pathStem (name : Str) : Str :=
  match (name.reverse.takeWhile (· ≠ '.')).length with
  | 0 => name  -- name ends with '.': no suffix
  | k =>
    if k = name.length ∨ k = name.length - 1 then name  -- no dot, or dot first
    else name.take (name.length - k - 1)

/-- Model of `_deduce_worker_id` from `basic-workload-summary.py` (lines 133–137),
applied to a path whose final component is `name`: search `_WORKER_RE`, fall
back to the stem. -/
def deduce_worker_id (name : Str) : Str :=
  match workerReSearch name with
  | some digits => digits
  | none => pathStem name

/-- Model of `WorkerStats` from `basic-workload-summary.py` (lines 35–42).
`log_path` holds the name component used to build the path (for aggregated
sections, the section name). -/
structure WorkerStats where
  worker_id : Str
  latency_avg_ms : ℚ
  latency_stdev_ms : ℚ
  req_per_sec_avg : ℚ
  req_per_sec_stdev : ℚ
  log_path : Str
  deriving DecidableEq, Repr

/-- Matcher for `_SECTION_START_RE = ^===== (.+) START =====$`: a full-line match returns
the (nonempty) captured name, i.e. the line without the fixed 6-char head and
12-char tail. -/
def sectionStartName (line : Str) : Option Str :=
  if "===== ".data.isPrefixOf line ∧ " START =====".data.isSuffixOf line ∧
      18 < line.length then
    some ((line.drop 6).take (line.length - 18))
  else none

/-- Matcher for `_SECTION_END_RE = ^===== (.+) END =====$`. -/
def sectionEndName (line : Str) : Option Str :=
  if "===== ".data.isPrefixOf line ∧ " END =====".data.isSuffixOf line ∧
      16 < line.length then
    some ((line.drop 6).take (line.length - 16))
  else none

/-- The `for raw_line in handle` loop of `parse_aggregated_log`
(lines 145–187) followed by the end-of-file check (lines 189–192).
Arguments mirror the loop state: accumulated `stats`, `current_name`,
`current_lines`. -/
def aggLoop (stats : List WorkerStats) (currentName : Option Str)
    (currentLines : List Str) : List Str → Except Err (List WorkerStats)
  | [] =>
    match currentName with
    | some _ => .error .structureErr  -- EOF before closing section
    | none => .ok stats
  | line :: rest =>
    match sectionStartName line with
    | some n =>
      match currentName with
      | some _ => .error .structureErr  -- nested section start
      | none => aggLoop stats (some n) [] rest
    | none =>
      match sectionEndName line, currentName with
      | some n, some m =>
        if n ≠ m then .error .structureErr  -- mismatched section end
        else
          match extract_metrics_from_lines currentLines.reverse with
          | .error e => .error e
          | .ok (a, b, c, d) =>
            aggLoop (stats ++ [⟨deduce_worker_id m, a, b, c, d, m⟩]) none [] rest
      | _, _ =>
        match currentName with
        | some _ => aggLoop stats currentName (line :: currentLines) rest
        | none => aggLoop stats none currentLines rest

/-- Model of `parse_aggregated_log` from `basic-workload-summary.py` (lines 140–197),
over the file's lines (without trailing newlines).  After the loop, an empty
result is rejected (lines 194–195). -/
def parse_aggregated_log (lines : List Str) : Except Err (List WorkerStats) :=
  match aggLoop [] none [] lines with
  | .error e => .error e
  | .ok stats => if stats = [] then .error .emptyResult else .ok stats

/-- Model of `RunMetrics` from `basic-workload-summary.py` (lines 200–207). -/
structure RunMetrics where
  workers : ℕ
  avg_latency_ms : ℚ
  latency_stddev_ms : ℚ
  avg_req_per_sec : ℚ
  req_per_sec_stddev : ℚ
  score : ℚ
  deriving DecidableEq, Repr

/-- Model of `statistics.mean`. -/
def listMean (xs : List ℚ) : ℚ := xs.sum / xs.length

/-- Model of `compute_run_metrics` from `basic-workload-summary.py` (lines 236–260).
`pstdev` stands for `statistics.pstdev`; it is taken as a parameter because
the source only ever calls it when more than one worker is present and no
verified property depends on its value. -/
def compute_run_metrics (pstdev : List ℚ → ℚ) (stats : List WorkerStats) :
    Except Err RunMetrics :=
  if stats = [] then .error .emptyInput
  else
    let latency_values := stats.map (·.latency_avg_ms)
    let req_values := stats.map (·.req_per_sec_avg)
    let avg_latency_ms := listMean latency_values
    let avg_req_per_sec := listMean req_values
    let latency_stddev_ms := if 1 < stats.length then pstdev latency_values else 0
    let req_stddev := if 1 < stats.length then pstdev req_values else 0
    if avg_latency_ms = 0 then .error .divisionErr
    else .ok {
      workers := stats.length
      avg_latency_ms := avg_latency_ms
      latency_stddev_ms := latency_stddev_ms
      avg_req_per_sec := avg_req_per_sec
      req_per_sec_stddev := req_stddev
      score := avg_req_per_sec / avg_latency_ms }

/-- The integer fields read from one `worker_<id>.summary` file by
`parse_summary_file` in `per-connection-workload-summary.py` after the
required-keys check (Python `int(...)` values). -/
structure SummaryInput where
  success : ℤ
  failure : ℤ
  latency_sum_ns : ℤ
  latency_count : ℤ
  latency_min_ns : ℤ
  latency_max_ns : ℤ
  duration_ns : ℤ
  deriving DecidableEq, Repr

/-- The numeric fields of `WorkerSummary` computed by `parse_summary_file`
(`per-connection-workload-summary.py` lines 87–106). -/
structure SummaryMetrics where
  total_requests : ℤ
  duration_sec : ℚ
  throughput_req_per_sec : ℚ
  latency_avg_ms : ℚ
  latency_min_ms : ℚ
  latency_max_ms : ℚ
  deriving DecidableEq, Repr

/-- The arithmetic of `parse_summary_file` (lines 87–106): every division is
guarded so that a non-positive denominator yields `0.0` instead. -/
def parse_summary_metrics (i : SummaryInput) : SummaryMetrics :=
  let total_requests := i.success + i.failure
  let duration_sec : ℚ := if 0 < i.duration_ns then (i.duration_ns : ℚ) / 1000000000 else 0
  { total_requests := total_requests
    duration_sec := duration_sec
    throughput_req_per_sec :=
      if 0 < duration_sec then (total_requests : ℚ) / duration_sec else 0
    latency_avg_ms :=
      if 0 < i.latency_count then
        ((i.latency_sum_ns : ℚ) / (i.latency_count : ℚ)) / 1000000 else 0
    latency_min_ms := if 0 < i.latency_min_ns then (i.latency_min_ns : ℚ) / 1000000 else 0
    latency_max_ms := if 0 < i.latency_max_ns then (i.latency_max_ns : ℚ) / 1000000 else 0 }

/-- Association-list model of a Python `dict` with string keys:
`setKey` replaces the value of an existing key in place (keeping insertion
order) and appends a new key at the end, exactly as `d[k] = v` does. -/
def setKey {α : Type} : List (Str × α) → Str → α → List (Str × α)
  | [], k, v => [(k, v)]
  | (k', v') :: rest, k, v =>
    if k' = k then (k, v) :: rest else (k', v') :: setKey rest k v

/-- Model of `k in d` / `d[k]` on the association-list dict model. -/
def lookupKey {α : Type} : List (Str × α) → Str → Option α
  | [], _ => none
  | (k', v') :: rest, k => if k' = k then some v' else lookupKey rest k

/-- Model of `METRICS_DEFAULTS` from `openevolve_eval.py` (lines 38–44), in the
insertion order of the source literal. -/
def METRICS_DEFAULTS : List (Str × ℚ) :=
  [("average_tput".data, 0), ("average_latency".data, 0), ("total_score".data, 0),
   ("run_successful".data, 0), ("compile_successful".data, 0)]

/-- Structure `EvaluationResult`: the metrics and artifacts maps handed back to the
caller of `evaluate`. -/
structure EvaluationResult where
  metrics : List (Str × ℚ)
  artifacts : List (Str × Str)
  deriving DecidableEq, Repr

/-- Python `float(...)` on the plain decimal literals found in the metrics
CSV: optional sign, then `digits`, `digits.digits`, `digits.` or `.digits`.
(Exponent and textual nan/inf forms are never produced by the CSV writer and
no claim depends on them.)  `none` models `ValueError`. -/
def pyFloat (s : Str) : Option ℚ :=
  let t := stripStr s
  let signBody : ℚ × Str :=
    match t with
    | '-' :: rest => (-1, rest)
    | '+' :: rest => (1, rest)
    | _ => (1, t)
  match signBody.2.splitOn '.' with
  | [ip] =>
    if ip ≠ [] ∧ ip.all isDigitC then some (signBody.1 * digitsToNat ip) else none
  | [ip, fp] =>
    if (ip ≠ [] ∨ fp ≠ []) ∧ ip.all isDigitC ∧ fp.all isDigitC then
      some (signBody.1 *
        ((digitsToNat ip : ℚ) + (digitsToNat fp : ℚ) / (10 : ℚ) ^ fp.length))
    else none
  | _ => none

/-- Model of `float(row.get(key, 0.0))` in `_parse_metrics_csv`: a missing key gives
`0.0`; an unparseable value raises `ValueError`. -/
def getFloatField (row : List (Str × Str)) (k : Str) : Except Err ℚ :=
  match lookupKey row k with
  | none => .ok 0
  | some s =>
    match pyFloat s with
    | some q => .ok q
    | none => .error .valueErr

/-- Model of `_parse_metrics_csv` from `openevolve_eval.py` (lines 184–193), over the
data rows produced by `csv.DictReader`: only the first row is read; a CSV
with no data rows raises `ValueError`. -/
def parse_metrics_csv (rows : List (List (Str × Str))) : Except Err (ℚ × ℚ × ℚ) :=
  match rows with
  | [] => .error .valueErr
  | row :: _ => do
    let t ← getFloatField row "avg_req_per_sec".data
    let l ← getFloatField row "avg_latency_ms".data
    let s ← getFloatField row "score".data
    .ok (t, l, s)

/-- The outcome of every external interaction `evaluate` performs, captured
as data so that `evaluate` becomes a pure function of it. -/
structure World where
  /-- Whether `go generate ./...` exited with code 0 (or could be started at all). -/
  compileOk : Bool
  /-- combined stdout+stderr of the build step, already stripped. -/
  compileOutput : Str
  /-- Whether `_start_servers` raised (FileNotFoundError → RuntimeError). -/
  launchFails : Bool
  /-- lines captured from the server process's combined output stream
  (necessarily empty when `launchFails`). -/
  serverOutput : List Str
  /-- Whether `_wait_for_server_logs` returned `True`. -/
  waitOk : Bool
  /-- Result of `proc.poll()` right after a successful wait (`some` = exited early). -/
  pollAfterWait : Option ℤ
  /-- findings of `_scan_server_logs_for_errors`, in sorted file order. -/
  errorLogs : List (Str × Str)
  /-- return code of the workload script (127 when it could not start). -/
  workloadRetcode : ℤ
  workloadStdout : Str
  workloadStderr : Str
  /-- Whether `basic-workload-summary.csv` exists. -/
  summaryExists : Bool
  /-- Whether `basic-workload-summary-metrics.csv` exists. -/
  metricsExists : Bool
  /-- data rows of the metrics CSV as read by `csv.DictReader`. -/
  metricsRows : List (List (Str × Str))
  /-- Result of `_collect_artifact(summary_path)`. -/
  summaryContent : Option Str
  /-- Result of `_collect_artifact(metrics_path)`. -/
  metricsContent : Option Str
  /-- Result of `_latest_log("acceptq_stats*.log", ...)` composed with
  `_collect_artifact`: `none` = no file, `some c` = its collected content. -/
  acceptqLog : Option (Option Str)
  /-- same for `cpu_stats*.log`. -/
  cpuLog : Option (Option Str)
  deriving Repr

/-- The artifact mutation of `evaluate`'s `finally` block (lines 321–324):
the captured server output is attached unless empty or already recorded.
It runs before the constructed `EvaluationResult` is handed to the caller,
and the result shares the `artifacts` dict, so the mutation is visible in the
returned value. -/
def finallyArtifacts (buf : List Str) (arts : List (Str × Str)) : List (Str × Str) :=
  if buf ≠ [] ∧ lookupKey arts "launch_servers_output".data = none then
    setKey arts "launch_servers_output".data buf.flatten
  else arts

/-- Model of `evaluate` from `openevolve_eval.py` (lines 219–324) as a function of the
external world.  `.error` models a Python exception propagating to the
caller.  Artifact messages that interpolate runtime values are modelled by
their fixed prefix (no claim inspects them). -/
def evaluate (w : World) : Except Err EvaluationResult :=
  let metrics := METRICS_DEFAULTS
  let artifacts : List (Str × Str) := []
  let artifacts := setKey artifacts "compile_output".data w.compileOutput
  if ¬ w.compileOk then .ok ⟨metrics, artifacts⟩
  else
  let metrics := setKey metrics "compile_successful".data 1
  if w.launchFails then
    -- the RuntimeError is caught; the output buffer is still empty, so the
    -- `finally` block adds nothing
    .ok ⟨metrics, finallyArtifacts []
      (setKey artifacts "launch_failure".data "Failed to launch servers".data)⟩
  else
  if ¬ w.waitOk then
    .ok ⟨metrics, finallyArtifacts w.serverOutput
      (setKey artifacts "launch_failure".data
        "Server logs did not appear before timeout".data)⟩
  else
  match w.pollAfterWait with
  | some _ =>
    .ok ⟨metrics, finallyArtifacts w.serverOutput
      (setKey artifacts "launch_failure".data
        "launch_servers.sh exited early".data)⟩
  | none =>
  if w.errorLogs ≠ [] then
    let artifacts := w.errorLogs.foldl
      (fun acc nc => setKey acc ("log_".data ++ nc.1) nc.2) artifacts
    .ok ⟨metrics, finallyArtifacts w.serverOutput
      (setKey artifacts "launch_failure".data
        "Detected 'error' keyword in server logs.".data)⟩
  else
  let artifacts := setKey artifacts "workload_stdout".data w.workloadStdout
  let artifacts := setKey artifacts "workload_stderr".data w.workloadStderr
  if w.workloadRetcode ≠ 0 then
    .ok ⟨metrics, finallyArtifacts w.serverOutput
      (setKey artifacts "workload_failure".data
        "basic-workload.sh exited with a nonzero code".data)⟩
  else
  if ¬ (w.summaryExists ∧ w.metricsExists) then
    .ok ⟨metrics, finallyArtifacts w.serverOutput
      (setKey artifacts "workload_failure".data
        "Expected workload summary files were not generated.".data)⟩
  else
  match parse_metrics_csv w.metricsRows with
  | .error e => .error e  -- the ValueError is not caught: it propagates
  | .ok tls =>
    let metrics := setKey metrics "average_tput".data tls.1
    let metrics := setKey metrics "average_latency".data tls.2.1
    let metrics := setKey metrics "total_score".data tls.2.2
    let metrics := setKey metrics "run_successful".data 1
    let artifacts :=
      match w.summaryContent with
      | some c => setKey artifacts "basic_workload_summary_csv".data c
      | none => artifacts
    let artifacts :=
      match w.metricsContent with
      | some c => setKey artifacts "basic_workload_metrics_csv".data c
      | none => artifacts
    let artifacts :=
      match w.acceptqLog with
      | some (some c) => setKey artifacts "acceptq_stats_log".data c
      | _ => artifacts
    let artifacts :=
      match w.cpuLog with
      | some (some c) => setKey artifacts "cpu_stats_log".data c
      | _ => artifacts
    .ok ⟨metrics, finallyArtifacts w.serverOutput artifacts⟩

/-- The artifacts map assembled on `evaluate`'s fully successful path
(spelled out for the branch lemma below; it follows the same steps as the
success branch of `evaluate`). -/
def successArtifacts (w : World) : List (Str × Str) :=
  let artifacts := setKey [] "compile_output".data w.compileOutput
  let artifacts := setKey artifacts "workload_stdout".data w.workloadStdout
  let artifacts := setKey artifacts "workload_stderr".data w.workloadStderr
  let artifacts :=
    match w.summaryContent with
    | some c => setKey artifacts "basic_workload_summary_csv".data c
    | none => artifacts
  let artifacts :=
    match w.metricsContent with
    | some c => setKey artifacts "basic_workload_metrics_csv".data c
    | none => artifacts
  let artifacts :=
    match w.acceptqLog with
    | some (some c) => setKey artifacts "acceptq_stats_log".data c
    | _ => artifacts
  let artifacts :=
    match w.cpuLog with
    | some (some c) => setKey artifacts "cpu_stats_log".data c
    | _ => artifacts
  finallyArtifacts w.serverOutput artifacts

/-- The pipeline stops before the metrics CSV is parsed: one of the stages
compile, launch, readiness wait, early-exit check, error scan, workload run
or summary-file existence fails. -/
def stopsBeforeParse (w : World) : Prop :=
  ¬ w.compileOk = true ∨ w.launchFails = true ∨ ¬ w.waitOk = true ∨
  w.pollAfterWait ≠ none ∨ w.errorLogs ≠ [] ∨ w.workloadRetcode ≠ 0 ∨
  ¬ (w.summaryExists = true ∧ w.metricsExists = true)

instance (w : World) : Decidable (stopsBeforeParse w) := by
  unfold stopsBeforeParse; infer_instance

/-- A world whose build step fails. -/
def failWorld : World :=
  { compileOk := false, compileOutput := "boom".data, launchFails := false,
    serverOutput := [], waitOk := false, pollAfterWait := none,
    errorLogs := [], workloadRetcode := 0, workloadStdout := "".data,
    workloadStderr := "".data, summaryExists := false, metricsExists := false,
    metricsRows := [], summaryContent := none, metricsContent := none,
    acceptqLog := none, cpuLog := none }

/-- A world where every pipeline stage succeeds and the metrics CSV has one
well-formed data row. -/
def okWorld : World :=
  { compileOk := true, compileOutput := "ok".data, launchFails := false,
    serverOutput := ["srv\n".data], waitOk := true, pollAfterWait := none,
    errorLogs := [], workloadRetcode := 0, workloadStdout := "out".data,
    workloadStderr := "".data, summaryExists := true, metricsExists := true,
    metricsRows := [[("avg_req_per_sec".data, "200.0".data),
      ("avg_latency_ms".data, "10.0".data), ("score".data, "20.0".data)]],
    summaryContent := some "sc".data, metricsContent := some "mc".data,
    acceptqLog := some (some "aq".data), cpuLog := none }

/-- Like `okWorld`, but the generated metrics CSV has a header and zero data
rows — `_parse_metrics_csv` raises `ValueError` on it. -/
def badCsvWorld : World := { okWorld with metricsRows := [] }

end S2P

namespace S2P

section

attribute [local semireducible] Rat.mul Rat.inv Rat.add Rat.sub

example : parse_latency "1.5s".data = .ok 1500 := by decide
example : parse_latency "200us".data = .ok (1 / 5) := by decide
example : parse_latency "10ms".data = .ok 10 := by decide
example : parse_latency "12.34MS".data = .ok (617 / 50) := by decide
example : parse_latency "10".data = .error .formatErr := by decide
example : parse_latency "10xs".data = .error .formatErr := by decide
example : parse_throughput "2.5k".data = .ok 2500 := by decide
example : parse_throughput "1g".data = .ok 1000000000 := by decide
example : parse_throughput "NaN".data = .ok 0 := by decide
example : parse_throughput " 100.00 ".data = .ok 100 := by decide
example : parse_throughput "abc".data = .error .formatErr := by decide

example :
    extract_metrics_from_lines
      ["    Latency   12.34ms   5.67ms   89.0ms".data,
       "    Req/Sec   100.00   10.00   200.00".data] =
    .ok (617 / 50, 567 / 100, 100, 10) := by decide

example :
    extract_metrics_from_lines ["Latency 10ms 1ms".data] =
    .error (.missingFields ["req_per_sec_avg".data, "req_per_sec_stdev".data]) := by decide

example : deduce_worker_id "wrk_client_12.log".data = "12".data := by decide
example : deduce_worker_id "foo_123.log".data = "foo_123".data := by decide
example : deduce_worker_id "a".data = "a".data := by decide

example :
    parse_aggregated_log
      ["===== a START =====".data,
       "Latency 10ms 1ms".data,
       "Req/Sec 100 10".data,
       "===== a END =====".data] =
    .ok [⟨"a".data, 10, 1, 100, 10, "a".data⟩] := by decide

example :
    parse_aggregated_log
      ["===== a START =====".data, "===== b END =====".data] =
    .error .structureErr := by decide

example : parse_aggregated_log ["hello".data] = .error .emptyResult := by decide

example :
    compute_run_metrics (fun _ => 0) [⟨"1".data, 10, 1, 100, 10, "x".data⟩] =
    .ok ⟨1, 10, 0, 100, 0, 10⟩ := by decide

example :
    parse_summary_metrics ⟨5, 5, 100, 0, 0, -3, 0⟩ =
    ⟨10, 0, 0, 0, 0, 0⟩ := by decide

example :
    parse_summary_metrics ⟨6, 4, 2000000, 2, 1000000, 3000000, 2000000000⟩ =
    ⟨10, 2, 5, 1, 1, 3⟩ := by decide

/-! ### Helper lemmas about characters and maximal runs -/

lemma takeWhile_append_of_all {p : Char → Bool} {xs ys : Str}
    (h : ∀ x ∈ xs, p x = true) :
    (xs ++ ys).takeWhile p = xs ++ ys.takeWhile p := by
  induction xs with
  | nil => rfl
  | cons a l ih =>
    have ha : p a = true := h a (List.mem_cons_self a l)
    simp only [List.cons_append, List.takeWhile_cons, ha, if_true]
    rw [ih (fun x hx => h x (List.mem_cons_of_mem a hx))]

lemma dropWhile_append_of_all {p : Char → Bool} {xs ys : Str}
    (h : ∀ x ∈ xs, p x = true) :
    (xs ++ ys).dropWhile p = ys.dropWhile p := by
  induction xs with
  | nil => rfl
  | cons a l ih =>
    have ha : p a = true := h a (List.mem_cons_self a l)
    simp only [List.cons_append, List.dropWhile_cons, ha, if_true]
    exact ih (fun x hx => h x (List.mem_cons_of_mem a hx))

lemma dropWhile_eq_self_of_all {p : Char → Bool} {xs : Str}
    (h : ∀ x ∈ xs, p x = false) : xs.dropWhile p = xs := by
  cases xs with
  | nil => rfl
  | cons a l => simp [List.dropWhile_cons, h a (List.mem_cons_self a l)]

lemma exists_last_of_all {p : Char → Bool} {l : Str} (hne : l ≠ [])
    (h : ∀ c ∈ l, p c = true) :
    ∃ d r, l.reverse = d :: r ∧ p d = true := by
  cases hrev : l.reverse with
  | nil => exact absurd (by simpa using congrArg List.reverse hrev) hne
  | cons d r =>
    refine ⟨d, r, rfl, h d ?_⟩
    have hd : d ∈ l.reverse := by rw [hrev]; exact List.mem_cons_self d r
    simpa using hd

lemma lowerChar_eq_self_of_lt {c : Char} (h : c.toNat < 65) : lowerChar c = c := by
  unfold lowerChar
  rw [if_neg]; omega

lemma lowerChar_digit {c : Char} (h : isDigitC c = true) : lowerChar c = c := by
  apply lowerChar_eq_self_of_lt
  simp only [isDigitC, decide_eq_true_eq] at h
  omega

lemma isLowerAlpha_of_digit {c : Char} (h : isDigitC c = true) :
    isLowerAlpha c = false := by
  simp only [isDigitC, decide_eq_true_eq] at h
  simp only [isLowerAlpha, decide_eq_false_iff_not]
  omega

lemma isSpaceC_of_digit {c : Char} (h : isDigitC c = true) :
    isSpaceC c = false := by
  simp only [isDigitC, decide_eq_true_eq] at h
  simp only [isSpaceC, decide_eq_false_iff_not]
  omega

/-! ### Helper lemmas about `numValid` -/

lemma numValid_ne_nil {s : Str} (h : numValid s = true) : s ≠ [] := by
  intro hs; subst hs; simp [numValid] at h

lemma map_eq_self_of_mem {f : Char → Char} {l : Str}
    (h : ∀ c ∈ l, f c = c) : l.map f = l := by
  induction l with
  | nil => rfl
  | cons a t ih =>
    rw [List.map_cons, h a (List.mem_cons_self a t),
      ih (fun c hc => h c (List.mem_cons_of_mem a hc))]

lemma numValid_mem {s : Str} (h : numValid s = true) :
    ∀ c ∈ s, isDigitC c = true ∨ c = '.' := by
  intro c hc
  have hsplit : s.takeWhile isDigitC ++ s.dropWhile isDigitC = s :=
    List.takeWhile_append_dropWhile isDigitC s
  rw [← hsplit] at hc
  rcases List.mem_append.mp hc with htk | hdr
  · exact Or.inl (List.mem_takeWhile_imp htk)
  · unfold numValid at h
    split at h
    · rename_i heq; rw [heq] at hdr; simp at hdr
    · rename_i frac heq
      rw [heq] at hdr
      rcases List.mem_cons.mp hdr with hcdot | hcf
      · exact Or.inr hcdot
      · simp only [Bool.and_eq_true, decide_eq_true_eq] at h
        exact Or.inl (List.all_eq_true.mp h.2 c hcf)
    · exact absurd h (by simp)

lemma numValid_last {s : Str} (h : numValid s = true) :
    ∃ d r, s.reverse = d :: r ∧ isDigitC d = true := by
  have hsplit : s.takeWhile isDigitC ++ s.dropWhile isDigitC = s :=
    List.takeWhile_append_dropWhile isDigitC s
  unfold numValid at h
  split at h
  · rename_i heq
    refine exists_last_of_all (by simpa using h) ?_
    intro c hc
    rw [← hsplit] at hc
    rcases List.mem_append.mp hc with h1 | h2
    · exact List.mem_takeWhile_imp h1
    · rw [heq] at h2; simp at h2
  · rename_i frac heq
    simp only [Bool.and_eq_true, decide_eq_true_eq] at h
    obtain ⟨d, r, hfr, hd⟩ :=
      exists_last_of_all (p := isDigitC) h.1 (List.all_eq_true.mp h.2)
    refine ⟨d, r ++ '.' :: (s.takeWhile isDigitC).reverse, ?_, hd⟩
    have hseq : s = s.takeWhile isDigitC ++ '.' :: frac := by
      conv_lhs => rw [← hsplit]
      rw [heq]
    calc s.reverse
        = (s.takeWhile isDigitC ++ '.' :: frac).reverse := by rw [← hseq]
      _ = d :: (r ++ '.' :: (s.takeWhile isDigitC).reverse) := by simp [hfr]
  · exact absurd h (by simp)

lemma numValid_head {s : Str} (h : numValid s = true) :
    ∃ c r, s = c :: r ∧ (isDigitC c = true ∨ c = '.') := by
  obtain ⟨c, r, hcr⟩ := List.exists_cons_of_ne_nil (numValid_ne_nil h)
  exact ⟨c, r, hcr, numValid_mem h c (by rw [hcr]; exact List.mem_cons_self c r)⟩

lemma lowerStr_numValid {s : Str} (h : numValid s = true) : lowerStr s = s := by
  unfold lowerStr
  apply map_eq_self_of_mem
  intro c hc
  rcases numValid_mem h c hc with hd | hdot
  · exact lowerChar_digit hd
  · subst hdot; exact lowerChar_eq_self_of_lt (by decide)

lemma stripStr_numValid_append {s t : Str} (hs : ∀ c ∈ s, isSpaceC c = false)
    (ht : ∀ c ∈ t, isSpaceC c = false) : stripStr (s ++ t) = s ++ t := by
  unfold stripStr
  have hall : ∀ c ∈ s ++ t, isSpaceC c = false := by
    intro c hc
    rcases List.mem_append.mp hc with h1 | h2
    · exact hs c h1
    · exact ht c h2
  rw [dropWhile_eq_self_of_all hall]
  rw [dropWhile_eq_self_of_all (fun c hc => hall c (List.mem_reverse.mp hc))]
  simp

/-! ### The latency regex on a decomposed token -/

lemma latencyMatch_append {num unit : Str} (hnum : numValid num = true)
    (hne : unit ≠ []) (hall : ∀ c ∈ unit, isLowerAlpha c = true) :
    latencyMatch (num ++ unit) = some (num, unit) := by
  obtain ⟨d, r, hrev, hd⟩ := numValid_last hnum
  have hdna : isLowerAlpha d = false := isLowerAlpha_of_digit hd
  have hallrev : ∀ c ∈ unit.reverse, isLowerAlpha c = true :=
    fun c hc => hall c (List.mem_reverse.mp hc)
  have hnum' : (d :: r).reverse = num := by rw [← hrev, List.reverse_reverse]
  unfold latencyMatch
  rw [List.reverse_append, takeWhile_append_of_all hallrev,
    dropWhile_append_of_all hallrev, hrev]
  rw [List.takeWhile_cons, List.dropWhile_cons]
  simp only [hdna, Bool.false_eq_true, if_false, List.append_nil, hnum']
  rw [if_neg (by simp [hne]), if_pos hnum, List.reverse_reverse]

lemma latencyMatch_some {t numPart unit : Str}
    (h : latencyMatch t = some (numPart, unit)) :
    t = numPart ++ unit ∧ numValid numPart = true := by
  unfold latencyMatch at h
  split_ifs at h with h1 h2
  · cases h
    refine ⟨?_, h2⟩
    calc t = t.reverse.reverse := (List.reverse_reverse t).symm
      _ = (t.reverse.takeWhile isLowerAlpha ++ t.reverse.dropWhile isLowerAlpha).reverse := by
          rw [List.takeWhile_append_dropWhile]
      _ = (t.reverse.dropWhile isLowerAlpha).reverse ++
            (t.reverse.takeWhile isLowerAlpha).reverse := by
          rw [List.reverse_append]

lemma latencyUnitFactor_cases {u : Str} {f : ℚ} (h : latencyUnitFactor u = some f) :
    (u = "us".data ∧ f = 1 / 1000) ∨ (u = "ms".data ∧ f = 1) ∨
    (u = "s".data ∧ f = 1000) := by
  unfold latencyUnitFactor at h
  split_ifs at h with h1 h2 h3
  · exact Or.inl ⟨by simpa using h1, (Option.some.inj h).symm⟩
  · exact Or.inr (Or.inl ⟨by simpa using h2, (Option.some.inj h).symm⟩)
  · exact Or.inr (Or.inr ⟨by simpa using h3, (Option.some.inj h).symm⟩)

/-- C7: for every token of the form `<number><unit>` with unit in
{us, ms, s} in any letter case, `parse_latency` returns the number times
1e-3 for us, times 1 for ms, and times 1e3 for s (so
`parse_latency "1.5s" = 1500.0`, `parse_latency "200us" = 0.2`,
`parse_latency "10ms" = 10.0`); for every token not of the form
number-followed-by-recognized-unit, `parse_latency` fails with
`FormatError`. -/
theorem C7_parse_latency :
    (∀ num unit f, numValid num = true →
        latencyUnitFactor (lowerStr unit) = some f →
        parse_latency (num ++ unit) = .ok (decToRat num * f)) ∧
    parse_latency "1.5s".data = .ok 1500 ∧
    parse_latency "200us".data = .ok (1 / 5) ∧
    parse_latency "10ms".data = .ok 10 ∧
    (∀ token, latencyTokenForm token = false →
        parse_latency token = .error .formatErr) := by
  refine ⟨?_, by decide, by decide, by decide, ?_⟩
  · intro num unit f hnum hf
    have hcases := latencyUnitFactor_cases hf
    have hne : lowerStr unit ≠ [] := by
      rcases hcases with ⟨h, _⟩ | ⟨h, _⟩ | ⟨h, _⟩ <;> simp [h]
    have hall : ∀ c ∈ lowerStr unit, isLowerAlpha c = true := by
      rcases hcases with ⟨h, _⟩ | ⟨h, _⟩ | ⟨h, _⟩ <;> (rw [h]; decide)
    have hlow : lowerStr (num ++ unit) = num ++ lowerStr unit := by
      unfold lowerStr
      rw [List.map_append]
      rw [show List.map lowerChar num = num from lowerStr_numValid hnum]
    unfold parse_latency
    rw [hlow, latencyMatch_append hnum hne hall]
    simp only [hf]
  · intro token hval
    unfold parse_latency
    cases hm : latencyMatch (lowerStr token) with
    | none => rfl
    | some p =>
      obtain ⟨numPart, unit⟩ := p
      cases hfac : latencyUnitFactor unit with
      | none => simp only [hfac]
      | some f =>
        exfalso
        obtain ⟨hsplit, hnum⟩ := latencyMatch_some hm
        unfold latencyTokenForm at hval
        rw [List.any_eq_false] at hval
        have hlen : numPart.length ≤ (lowerStr token).length := by
          rw [hsplit, List.length_append]; omega
        refine hval numPart.length
          (List.mem_range.mpr (Nat.lt_succ_of_le hlen)) ?_
        rw [hsplit, List.take_left, List.drop_left]
        simp [hnum, hfac]

/-- Witness for C7: concrete instantiations discharging each hypothesis. -/
theorem C7_parse_latency_witness :
    parse_latency ("2.5".data ++ "S".data) = .ok (decToRat "2.5".data * 1000) ∧
    parse_latency "xy".data = .error .formatErr :=
  ⟨C7_parse_latency.1 "2.5".data "S".data 1000 (by decide) (by decide),
   C7_parse_latency.2.2.2.2 "xy".data (by decide)⟩

/-! ### The throughput regex on a decomposed token -/

lemma isSpaceC_of_lowerChar {c x : Char} (hx : lowerChar c = x)
    (hxs : isSpaceC x = false) : isSpaceC c = false := by
  by_cases hs : isSpaceC c = true
  · have : lowerChar c = c := by
      apply lowerChar_eq_self_of_lt
      simp only [isSpaceC, decide_eq_true_eq] at hs
      omega
    rw [this] at hx
    rw [hx] at hs
    rw [hs] at hxs
    cases hxs
  · simpa using hs

lemma numValid_nonspace {s : Str} (h : numValid s = true) :
    ∀ c ∈ s, isSpaceC c = false := by
  intro c hc
  rcases numValid_mem h c hc with hd | hdot
  · exact isSpaceC_of_digit hd
  · subst hdot; decide

lemma not_nan_of_numValid {num rest : Str} (hnum : numValid num = true) :
    ¬ (num ++ rest = "nan".data ∨ num ++ rest = "-nan".data ∨
        num ++ rest = "+nan".data) := by
  obtain ⟨c, r, hcr, hc⟩ := numValid_head hnum
  subst hcr
  rintro (h | h | h) <;>
    (rw [List.cons_append] at h
     injection h with h1 h2
     subst h1
     rcases hc with hd | hdot
     · exact absurd hd (by decide)
     · exact absurd hdot (by decide))

lemma throughputMatch_num {num : Str} (hnum : numValid num = true) :
    throughputMatch num = some (num, []) := by
  obtain ⟨d, r, hrev, hd⟩ := numValid_last hnum
  have h1 : ¬ (d = 'k' ∨ d = 'm' ∨ d = 'g') := by
    rintro (h | h | h) <;> (subst h; exact absurd hd (by decide))
  unfold throughputMatch
  rw [hrev]
  simp only [h1, if_false, hnum, if_true]

lemma throughputMatch_suffix {num : Str} {c : Char} (hnum : numValid num = true)
    (hc : c = 'k' ∨ c = 'm' ∨ c = 'g') :
    throughputMatch (num ++ [c]) = some (num, [c]) := by
  unfold throughputMatch
  rw [List.reverse_append]
  simp only [List.reverse_cons, List.reverse_nil, List.nil_append,
    List.singleton_append]
  simp only [hc, if_true, List.reverse_reverse, hnum]

lemma throughputMatch_some {t numPart suffix : Str}
    (h : throughputMatch t = some (numPart, suffix)) :
    t = numPart ++ suffix ∧ numValid numPart = true ∧
      (throughputSuffixFactor suffix).isSome = true := by
  unfold throughputMatch at h
  cases ht : t.reverse with
  | nil => rw [ht] at h; cases h
  | cons c rest =>
    rw [ht] at h
    have htt : t = rest.reverse ++ [c] := by
      calc t = t.reverse.reverse := (List.reverse_reverse t).symm
        _ = rest.reverse ++ [c] := by rw [ht]; simp
    have h' : (if c = 'k' ∨ c = 'm' ∨ c = 'g' then
        (if numValid rest.reverse = true then some (rest.reverse, [c]) else none)
      else (if numValid t = true then some (t, []) else none)) =
        some (numPart, suffix) := h
    clear h
    rename' h' => h
    by_cases h1 : c = 'k' ∨ c = 'm' ∨ c = 'g'
    · rw [if_pos h1] at h
      by_cases h2 : numValid rest.reverse = true
      · rw [if_pos h2] at h
        cases h
        refine ⟨htt, h2, ?_⟩
        rcases h1 with h | h | h <;> (subst h; decide)
      · rw [if_neg h2] at h; cases h
    · rw [if_neg h1] at h
      by_cases h3 : numValid t = true
      · rw [if_pos h3] at h
        cases h
        exact ⟨by simp, h3, by decide⟩
      · rw [if_neg h3] at h; cases h

lemma stripStr_eq_self_of_all {s : Str} (h : ∀ c ∈ s, isSpaceC c = false) :
    stripStr s = s := by
  unfold stripStr
  rw [dropWhile_eq_self_of_all h]
  rw [dropWhile_eq_self_of_all (fun c hc => h c (List.mem_reverse.mp hc))]
  simp

lemma lowerStr_eq_singleton {s : Str} {x : Char} (h : lowerStr s = [x]) :
    ∃ c, s = [c] ∧ lowerChar c = x := by
  cases s with
  | nil => cases h
  | cons a t =>
    cases t with
    | nil =>
      refine ⟨a, rfl, ?_⟩
      simp only [lowerStr, List.map_cons, List.map_nil] at h
      exact (List.cons.injEq .. ▸ h).1
    | cons b u => simp [lowerStr] at h

lemma throughputSuffixFactor_cases {u : Str} {f : ℚ}
    (h : throughputSuffixFactor u = some f) :
    (u = [] ∧ f = 1) ∨ (u = ['k'] ∧ f = 1000) ∨ (u = ['m'] ∧ f = 1000000) ∨
    (u = ['g'] ∧ f = 1000000000) := by
  unfold throughputSuffixFactor at h
  split_ifs at h with h1 h2 h3 h4
  · exact Or.inl ⟨h1, (Option.some.inj h).symm⟩
  · exact Or.inr (Or.inl ⟨h2, (Option.some.inj h).symm⟩)
  · exact Or.inr (Or.inr (Or.inl ⟨h3, (Option.some.inj h).symm⟩))
  · exact Or.inr (Or.inr (Or.inr ⟨h4, (Option.some.inj h).symm⟩))

/-- C8: for every token of the form `<number><suffix>` with suffix in
{empty, k, m, g} in any letter case, `parse_throughput` returns the number
scaled by 1, 1e3, 1e6, 1e9 respectively (so `parse_throughput "2.5k" = 2500`
and `parse_throughput "1g" = 1e9`); the textual tokens "nan", "-nan", "+nan"
(case-insensitive) return 0.0; every other unparseable token fails with
`FormatError`. -/
theorem C8_parse_throughput :
    (∀ num suffix f, numValid num = true →
        throughputSuffixFactor (lowerStr suffix) = some f →
        parse_throughput (num ++ suffix) = .ok (decToRat num * f)) ∧
    parse_throughput "2.5k".data = .ok 2500 ∧
    parse_throughput "1g".data = .ok 1000000000 ∧
    parse_throughput "nan".data = .ok 0 ∧
    parse_throughput "-NaN".data = .ok 0 ∧
    parse_throughput "+nan".data = .ok 0 ∧
    (∀ token, throughputTokenForm token = false →
        parse_throughput token = .error .formatErr) := by
  refine ⟨?_, by decide, by decide, by decide, by decide, by decide, ?_⟩
  · intro num suffix f hnum hf
    have hnsp := numValid_nonspace hnum
    rcases throughputSuffixFactor_cases hf with ⟨hu, hfv⟩ | ⟨hu, hfv⟩ |
      ⟨hu, hfv⟩ | ⟨hu, hfv⟩
    · have hsuf : suffix = [] := by
        cases suffix with
        | nil => rfl
        | cons a t => simp [lowerStr] at hu
      subst hsuf hfv
      rw [List.append_nil]
      unfold parse_throughput
      rw [stripStr_eq_self_of_all hnsp, lowerStr_numValid hnum]
      have hnan := @not_nan_of_numValid num [] hnum
      rw [List.append_nil] at hnan
      rw [if_neg hnan, throughputMatch_num hnum]
      simp [throughputSuffixFactor]
    all_goals (
      obtain ⟨c, hsuf, hlc⟩ := lowerStr_eq_singleton hu
      subst hsuf hfv
      unfold parse_throughput
      have hcs : isSpaceC c = false := isSpaceC_of_lowerChar hlc (by decide)
      rw [stripStr_eq_self_of_all (s := num ++ [c]) (by
        intro x hx
        rcases List.mem_append.mp hx with h1 | h2
        · exact hnsp x h1
        · simp only [List.mem_singleton] at h2; subst h2; exact hcs)]
      rw [show lowerStr (num ++ [c]) = num ++ [lowerChar c] from by
        unfold lowerStr
        rw [List.map_append, show List.map lowerChar num = num from
          lowerStr_numValid hnum]
        rfl]
      rw [hlc]
      rw [if_neg (not_nan_of_numValid hnum)]
      rw [throughputMatch_suffix hnum (by tauto)]
      simp [throughputSuffixFactor])
  · intro token hval
    unfold parse_throughput
    unfold throughputTokenForm at hval
    simp only [Bool.or_eq_false_iff, decide_eq_false_iff_not] at hval
    obtain ⟨⟨⟨hn1, hn2⟩, hn3⟩, hany⟩ := hval
    rw [if_neg (by tauto)]
    cases hm : throughputMatch (lowerStr (stripStr token)) with
    | none => rfl
    | some p =>
      obtain ⟨numPart, suffix⟩ := p
      cases hfac : throughputSuffixFactor suffix with
      | none => simp only [hfac]
      | some f =>
        exfalso
        obtain ⟨hsplit, hnum, hsome⟩ := throughputMatch_some hm
        rw [List.any_eq_false] at hany
        have hlen : numPart.length ≤ (lowerStr (stripStr token)).length := by
          rw [hsplit, List.length_append]; omega
        refine hany numPart.length
          (List.mem_range.mpr (Nat.lt_succ_of_le hlen)) ?_
        rw [hsplit, List.take_left, List.drop_left]
        simp [hnum, hsome]

/-- Witness for C8: concrete instantiations discharging each hypothesis. -/
theorem C8_parse_throughput_witness :
    parse_throughput ("3".data ++ "K".data) = .ok (decToRat "3".data * 1000) ∧
    parse_throughput "2.5.k".data = .error .formatErr :=
  ⟨C8_parse_throughput.1 "3".data "K".data 1000 (by decide) (by decide),
   C8_parse_throughput.2.2.2.2.2.2 "2.5.k".data (by decide)⟩

/-! ### The worker-id regex -/

lemma drop_takeWhile_length (p : Char → Bool) (l : Str) :
    l.drop (l.takeWhile p).length = l.dropWhile p := by
  have h := List.drop_left (l.takeWhile p) (l.dropWhile p)
  rw [List.takeWhile_append_dropWhile] at h
  exact h

lemma workerReSearch_append {p d : Str} (hne : d ≠ [])
    (hd : d.all isDigitC = true) :
    workerReSearch (p ++ "wrk_client_".data ++ d ++ ".log".data) = some d := by
  have hrev : (p ++ "wrk_client_".data ++ d ++ ".log".data).reverse =
      "gol.".data ++ (d.reverse ++ ("_tneilc_krw".data ++ p.reverse)) := by
    rw [List.reverse_append, List.reverse_append, List.reverse_append]
    rw [show ".log".data.reverse = "gol.".data from by decide]
    rw [show "wrk_client_".data.reverse = "_tneilc_krw".data from by decide]
  have halld : ∀ c ∈ d.reverse, isDigitC c = true :=
    fun c hc => List.all_eq_true.mp hd c (List.mem_reverse.mp hc)
  have htk : ("_tneilc_krw".data ++ p.reverse).takeWhile isDigitC = [] := by
    rw [show ("_tneilc_krw".data ++ p.reverse) =
      '_' :: ("tneilc_krw".data ++ p.reverse) from rfl]
    rw [List.takeWhile_cons]
    simp [show isDigitC '_' = false from by decide]
  simp only [workerReSearch, hrev]
  rw [if_pos (by simp [List.isPrefixOf_iff_prefix])]
  rw [show ∀ R : Str, ("gol.".data ++ R).drop 4 = R from
    fun R => List.drop_left' (by decide)]
  rw [takeWhile_append_of_all halld, htk, List.append_nil]
  rw [if_pos ?side]
  case side =>
    refine ⟨by simp [hne], ?_⟩
    rw [List.drop_left]
    simp [List.isPrefixOf_iff_prefix]
  rw [List.reverse_reverse]

lemma workerReSearch_some {name d0 : Str} (h : workerReSearch name = some d0) :
    ∃ p, name = p ++ "wrk_client_".data ++ d0 ++ ".log".data ∧ d0 ≠ [] ∧
      d0.all isDigitC = true := by
  simp only [workerReSearch] at h
  split_ifs at h with h1 h2
  · obtain ⟨t, ht⟩ := List.isPrefixOf_iff_prefix.mp h1
    have hcore : name.reverse.drop 4 = t := by
      rw [← ht]; exact List.drop_left' (by decide)
    rw [hcore] at h h2
    obtain ⟨hne0, hpre⟩ := h2
    rw [drop_takeWhile_length] at hpre
    obtain ⟨u, hu⟩ := List.isPrefixOf_iff_prefix.mp hpre
    have hd0 : (t.takeWhile isDigitC).reverse = d0 := Option.some.inj h
    refine ⟨u.reverse, ?_, ?_, ?_⟩
    · have hname : name = ("gol.".data ++ t).reverse := by
        rw [ht, List.reverse_reverse]
      rw [hname, List.reverse_append]
      rw [show "gol.".data.reverse = ".log".data from by decide]
      have htt : t = t.takeWhile isDigitC ++ ("_tneilc_krw".data ++ u) := by
        conv_lhs => rw [← List.takeWhile_append_dropWhile (p := isDigitC) (l := t)]
        rw [hu]
      rw [htt, List.reverse_append, List.reverse_append]
      rw [show "_tneilc_krw".data.reverse = "wrk_client_".data from by decide]
      rw [hd0]
    · rw [← hd0]; simpa using hne0
    · rw [← hd0, List.all_eq_true]
      intro c hc
      exact List.mem_takeWhile_imp (List.mem_reverse.mp hc)

/-- Counterexample to C4 as stated: the claimed pattern `<anything>_<digits>.log`
does not match the code's `wrk_client_(\d+)\.log$` — for the name
`foo_123.log` the code returns the stem `foo_123`, not the digits `123`. -/
theorem C4_counterexample :
    deduce_worker_id "foo_123.log".data = "foo_123".data ∧
    "foo_123".data ≠ "123".data := by
  constructor <;> decide

/-- C4 (amended): the worker-id pattern is `wrk_client_<digits>.log`, searched
at the end of the name: every name of the form
`<prefix>wrk_client_<digits>.log` yields exactly the digits, and every name
admitting no such decomposition yields the stem verbatim. -/
theorem C4_deduce_worker_id :
    (∀ p d, d ≠ [] → d.all isDigitC = true →
        deduce_worker_id (p ++ "wrk_client_".data ++ d ++ ".log".data) = d) ∧
    (∀ name, (∀ p d, d ≠ [] → d.all isDigitC = true →
        name ≠ p ++ "wrk_client_".data ++ d ++ ".log".data) →
      deduce_worker_id name = pathStem name) := by
  constructor
  · intro p d hne hd
    unfold deduce_worker_id
    rw [workerReSearch_append hne hd]
  · intro name hno
    unfold deduce_worker_id
    cases hm : workerReSearch name with
    | none => rfl
    | some d0 =>
      obtain ⟨p, heq, hne, hd⟩ := workerReSearch_some hm
      exact absurd heq (hno p d0 hne hd)

/-- Witness for C4: concrete instantiations discharging each hypothesis. -/
theorem C4_deduce_worker_id_witness :
    deduce_worker_id ("x".data ++ "wrk_client_".data ++ "7".data ++ ".log".data) =
      "7".data ∧
    deduce_worker_id "a.log".data = pathStem "a.log".data := by
  constructor
  · exact C4_deduce_worker_id.1 "x".data "7".data (by decide) (by decide)
  · refine C4_deduce_worker_id.2 "a.log".data ?_
    intro p d hne hd heq
    have hlen := congrArg List.length heq
    simp only [List.length_append,
      show "wrk_client_".data.length = 11 from rfl,
      show ".log".data.length = 4 from rfl,
      show "a.log".data.length = 5 from rfl] at hlen
    have hd1 : 1 ≤ d.length := List.length_pos.mpr hne
    omega

/-- C6: `compute_run_metrics` fails with `EmptyInputError` on every empty
collection, fails with `DivisionError` on every non-empty collection whose
mean latency is exactly 0, and otherwise returns `RunMetrics` with
`score = mean(throughput) / mean(latency)`; with exactly one worker both
standard deviations are 0.  (`p` stands for `statistics.pstdev`, on whose
values nothing here depends.) -/
theorem C6_compute_run_metrics :
    (∀ p, compute_run_metrics p [] = .error .emptyInput) ∧
    (∀ p stats, stats ≠ [] →
        listMean (stats.map (·.latency_avg_ms)) = 0 →
        compute_run_metrics p stats = .error .divisionErr) ∧
    (∀ p stats, stats ≠ [] →
        listMean (stats.map (·.latency_avg_ms)) ≠ 0 →
        ∃ m, compute_run_metrics p stats = .ok m ∧
          m.score = listMean (stats.map (·.req_per_sec_avg)) /
            listMean (stats.map (·.latency_avg_ms)) ∧
          m.avg_latency_ms = listMean (stats.map (·.latency_avg_ms)) ∧
          m.avg_req_per_sec = listMean (stats.map (·.req_per_sec_avg)) ∧
          m.workers = stats.length) ∧
    (∀ p s, s.latency_avg_ms ≠ 0 →
        compute_run_metrics p [s] = .ok {
          workers := 1
          avg_latency_ms := s.latency_avg_ms
          latency_stddev_ms := 0
          avg_req_per_sec := s.req_per_sec_avg
          req_per_sec_stddev := 0
          score := s.req_per_sec_avg / s.latency_avg_ms }) := by
  refine ⟨fun p => rfl, ?_, ?_, ?_⟩
  · intro p stats hne hmean
    simp [compute_run_metrics, hne, hmean]
  · intro p stats hne hmean
    refine ⟨{ workers := stats.length
              avg_latency_ms := listMean (stats.map (·.latency_avg_ms))
              latency_stddev_ms :=
                if 1 < stats.length then p (stats.map (·.latency_avg_ms)) else 0
              avg_req_per_sec := listMean (stats.map (·.req_per_sec_avg))
              req_per_sec_stddev :=
                if 1 < stats.length then p (stats.map (·.req_per_sec_avg)) else 0
              score := listMean (stats.map (·.req_per_sec_avg)) /
                listMean (stats.map (·.latency_avg_ms)) }, ?_, rfl, rfl, rfl, rfl⟩
    simp [compute_run_metrics, hne, hmean]
  · intro p s hlat
    have h1 : listMean ([s].map (·.latency_avg_ms)) = s.latency_avg_ms := by
      simp [listMean]
    have h2 : listMean ([s].map (·.req_per_sec_avg)) = s.req_per_sec_avg := by
      simp [listMean]
    simp only [compute_run_metrics, h1, h2]
    rw [if_neg (by simp), if_neg hlat]
    simp

/-- Witness for C6: concrete instantiations discharging each hypothesis. -/
theorem C6_compute_run_metrics_witness :
    compute_run_metrics (fun _ => 0) [] = .error .emptyInput ∧
    compute_run_metrics (fun _ => 0) [⟨"1".data, 0, 0, 5, 0, "x".data⟩] =
      .error .divisionErr ∧
    compute_run_metrics (fun _ => 0) [⟨"1".data, 10, 1, 100, 10, "x".data⟩] =
      .ok ⟨1, 10, 0, 100, 0, 10⟩ := by
  refine ⟨C6_compute_run_metrics.1 _, ?_, ?_⟩
  · exact C6_compute_run_metrics.2.1 _ _ (by decide) (by decide)
  · have := C6_compute_run_metrics.2.2.2 (fun _ => 0)
      ⟨"1".data, 10, 1, 100, 10, "x".data⟩ (by decide)
    rw [this]
    decide

/-- C9: `parse_summary_file`'s arithmetic never divides by zero — each
division is guarded: non-positive `duration_ns` gives throughput 0.0 instead
of `total_requests/duration`, non-positive `latency_count` gives average
latency 0.0, and non-positive nanosecond minima/maxima give 0.0. -/
theorem C9_parse_summary_metrics (i : SummaryInput) :
    (i.duration_ns ≤ 0 → (parse_summary_metrics i).throughput_req_per_sec = 0) ∧
    (0 < i.duration_ns → (parse_summary_metrics i).throughput_req_per_sec =
      (((i.success + i.failure : ℤ) : ℚ)) / ((i.duration_ns : ℚ) / 1000000000)) ∧
    (i.latency_count ≤ 0 → (parse_summary_metrics i).latency_avg_ms = 0) ∧
    (0 < i.latency_count → (parse_summary_metrics i).latency_avg_ms =
      ((i.latency_sum_ns : ℚ) / (i.latency_count : ℚ)) / 1000000) ∧
    (i.latency_min_ns ≤ 0 → (parse_summary_metrics i).latency_min_ms = 0) ∧
    (i.latency_max_ns ≤ 0 → (parse_summary_metrics i).latency_max_ms = 0) := by
  refine ⟨?_, ?_, ?_, ?_, ?_, ?_⟩ <;> intro h
  · have hnd : ¬ (0 : ℤ) < i.duration_ns := by omega
    simp [parse_summary_metrics, hnd]
  · have hq : (0 : ℚ) < (i.duration_ns : ℚ) / 1000000000 := by
      apply div_pos
      · exact_mod_cast h
      · norm_num
    simp [parse_summary_metrics, h, hq]
  · have hnc : ¬ (0 : ℤ) < i.latency_count := by omega
    simp [parse_summary_metrics, hnc]
  · simp [parse_summary_metrics, h]
  · have hnm : ¬ (0 : ℤ) < i.latency_min_ns := by omega
    simp [parse_summary_metrics, hnm]
  · have hnx : ¬ (0 : ℤ) < i.latency_max_ns := by omega
    simp [parse_summary_metrics, hnx]

/-- Witness for C9: concrete instantiations discharging each hypothesis. -/
theorem C9_parse_summary_metrics_witness :
    (parse_summary_metrics ⟨5, 5, 100, 0, 0, -3, 0⟩).throughput_req_per_sec = 0 ∧
    (parse_summary_metrics ⟨5, 5, 100, 0, 0, -3, 0⟩).latency_avg_ms = 0 ∧
    (parse_summary_metrics ⟨5, 5, 100, 0, 0, -3, 0⟩).latency_min_ms = 0 ∧
    (parse_summary_metrics ⟨5, 5, 100, 0, 0, -3, 0⟩).latency_max_ms = 0 ∧
    (parse_summary_metrics ⟨6, 4, 2000000, 2, 1000000, 3000000, 2000000000⟩).latency_avg_ms = 1 := by
  refine ⟨(C9_parse_summary_metrics _).1 (by decide),
    (C9_parse_summary_metrics _).2.2.1 (by decide),
    (C9_parse_summary_metrics _).2.2.2.2.1 (by decide),
    (C9_parse_summary_metrics _).2.2.2.2.2 (by decide), ?_⟩
  have := (C9_parse_summary_metrics
    ⟨6, 4, 2000000, 2, 1000000, 3000000, 2000000000⟩).2.2.2.1 (by decide)
  rw [this]
  decide

/-! ### Step and error-shape lemmas for the worker-log reader -/

lemma parse_latency_error {t : Str} {e : Err} (h : parse_latency t = .error e) :
    e = .formatErr := by
  unfold parse_latency at h
  cases hm : latencyMatch (lowerStr t) with
  | none => rw [hm] at h; injection h with h'; exact h'.symm
  | some p =>
    obtain ⟨n, u⟩ := p
    rw [hm] at h
    cases hf : latencyUnitFactor u with
    | none => simp only [hf] at h; injection h with h'; exact h'.symm
    | some f => simp only [hf] at h; cases h

lemma parse_throughput_error {t : Str} {e : Err}
    (h : parse_throughput t = .error e) : e = .formatErr := by
  unfold parse_throughput at h
  split_ifs at h with h1
  cases hm : throughputMatch (lowerStr (stripStr t)) with
    | none => rw [hm] at h; injection h with h'; exact h'.symm
    | some p =>
      obtain ⟨n, u⟩ := p
      rw [hm] at h
      cases hf : throughputSuffixFactor u with
      | none => simp only [hf] at h; injection h with h'; exact h'.symm
      | some f => simp only [hf] at h; cases h

lemma extractStep_latency {st : ExtractState} {l p0 p1 p2 : Str}
    {ps : List Str} {a b : ℚ}
    (hpre : "Latency".data.isPrefixOf (stripStr l) = true)
    (hsp : splitWS (stripStr l) = p0 :: p1 :: p2 :: ps)
    (ha : parse_latency p1 = .ok a) (hb : parse_latency p2 = .ok b) :
    extractStep st l =
      .ok { st with latency_avg_ms := some a, latency_stdev_ms := some b } := by
  unfold extractStep
  rw [if_pos hpre]
  simp only [hsp, ha, hb]

lemma extractStep_reqsec {st : ExtractState} {l p0 p1 p2 : Str}
    {ps : List Str} {a b : ℚ}
    (hpre1 : "Latency".data.isPrefixOf (stripStr l) = false)
    (hpre2 : "Req/Sec".data.isPrefixOf (stripStr l) = true)
    (hsp : splitWS (stripStr l) = p0 :: p1 :: p2 :: ps)
    (ha : parse_throughput p1 = .ok a) (hb : parse_throughput p2 = .ok b) :
    extractStep st l =
      .ok { st with req_avg := some a, req_stdev := some b } := by
  unfold extractStep
  rw [if_neg (by simp [hpre1]), if_pos hpre2]
  simp only [hsp, ha, hb]

lemma extractStep_short {st : ExtractState} {l : Str}
    (hlen : (splitWS (stripStr l)).length < 3) :
    extractStep st l = .ok st := by
  unfold extractStep
  rcases hsp : splitWS (stripStr l) with _ | ⟨p0, _ | ⟨p1, _ | ⟨p2, ps⟩⟩⟩
  · split_ifs <;> simp [hsp]
  · split_ifs <;> simp [hsp]
  · split_ifs <;> simp [hsp]
  · rw [hsp] at hlen
    simp only [List.length_cons] at hlen
    omega

lemma extractStep_error {st : ExtractState} {l : Str} {e : Err}
    (h : extractStep st l = .error e) : e = .formatErr := by
  unfold extractStep at h
  split_ifs at h with h1 h2
  · rcases hsp : splitWS (stripStr l) with _ | ⟨p0, _ | ⟨p1, _ | ⟨p2, ps⟩⟩⟩ <;>
      simp only [hsp] at h
    · cases h
    · cases h
    · cases h
    · cases hp1 : parse_latency p1 with
      | error e1 =>
        simp only [hp1] at h
        injection h with h'
        rw [← h']; exact parse_latency_error hp1
      | ok a =>
        cases hp2 : parse_latency p2 with
        | error e2 =>
          simp only [hp1, hp2] at h
          injection h with h'
          rw [← h']; exact parse_latency_error hp2
        | ok b => simp only [hp1, hp2] at h; cases h
  · rcases hsp : splitWS (stripStr l) with _ | ⟨p0, _ | ⟨p1, _ | ⟨p2, ps⟩⟩⟩ <;>
      simp only [hsp] at h
    · cases h
    · cases h
    · cases h
    · cases hp1 : parse_throughput p1 with
      | error e1 =>
        simp only [hp1] at h
        injection h with h'
        rw [← h']; exact parse_throughput_error hp1
      | ok a =>
        cases hp2 : parse_throughput p2 with
        | error e2 =>
          simp only [hp1, hp2] at h
          injection h with h'
          rw [← h']; exact parse_throughput_error hp2
        | ok b => simp only [hp1, hp2] at h; cases h

lemma extractScan_error : ∀ {lines : List Str} {st : ExtractState} {e : Err},
    extractScan st lines = .error e → e = .formatErr := by
  intro lines
  induction lines with
  | nil =>
    intro st e h
    have h' : (Except.ok st : Except Err ExtractState) = .error e := h
    cases h'
  | cons l rest ih =>
    intro st e h
    rw [extractScan, List.foldlM_cons] at h
    cases hstep : extractStep st l with
    | error e1 =>
      rw [hstep] at h
      have h' : (Except.error e1 : Except Err ExtractState) = .error e := h
      injection h' with h''
      rw [← h'']; exact extractStep_error hstep
    | ok st2 =>
      rw [hstep] at h
      exact ih h

lemma missingOf_all_some {st : ExtractState} (ha : st.latency_avg_ms ≠ none)
    (hb : st.latency_stdev_ms ≠ none) (hc : st.req_avg ≠ none)
    (hd : st.req_stdev ≠ none) : missingOf st = [] := by
  simp [missingOf, ha, hb, hc, hd]

lemma extractFinalize_missing {st : ExtractState} (h : missingOf st ≠ []) :
    extractFinalize st = .error (.missingFields (missingOf st)) := by
  obtain ⟨a, b, c, d⟩ := st
  cases a with
  | none => rfl
  | some a0 =>
    cases b with
    | none => rfl
    | some b0 =>
      cases c with
      | none => rfl
      | some c0 =>
        cases d with
        | none => rfl
        | some d0 => exact absurd (by simp [missingOf]) h

lemma extractFinalize_ok {st : ExtractState} (h : missingOf st = []) :
    ∃ t, extractFinalize st = .ok t := by
  obtain ⟨a, b, c, d⟩ := st
  cases a with
  | none => exact absurd h (by simp [missingOf])
  | some a0 =>
    cases b with
    | none => exact absurd h (by simp [missingOf])
    | some b0 =>
      cases c with
      | none => exact absurd h (by simp [missingOf])
      | some c0 =>
        cases d with
        | none => exact absurd h (by simp [missingOf])
        | some d0 => exact ⟨(a0, b0, c0, d0), rfl⟩

/-- Counterexample to C1 as stated: on an input with two well-formed
`Latency` lines (first `10ms 1ms`, second `20ms 2ms`) the returned latency
values are those of the SECOND (last) line, not the first — each matching
line overwrites the previously stored values. -/
theorem C1_counterexample :
    extract_metrics_from_lines
      ["Latency 10ms 1ms".data, "Latency 20ms 2ms".data,
       "Req/Sec 100 10".data] = .ok (20, 2, 100, 10) ∧
    (20 : ℚ) ≠ 10 := by
  constructor
  · decide
  · decide

/-- C1 (amended): when a worker's lines contain several lines beginning with
`Latency` (resp. `Req/Sec`), the returned average and standard deviation are
those parsed from the LAST such line having at least three tokens — appending
a well-formed matching line to any scan overwrites the stored values,
regardless of what earlier lines set. -/
theorem C1_last_match_wins :
    (∀ st lines st' l a b, extractScan st lines = .ok st' →
        "Latency".data.isPrefixOf (stripStr l) = true →
        (∃ p0 p1 p2 ps, splitWS (stripStr l) = p0 :: p1 :: p2 :: ps ∧
          parse_latency p1 = .ok a ∧ parse_latency p2 = .ok b) →
        extractScan st (lines ++ [l]) =
          .ok { st' with latency_avg_ms := some a, latency_stdev_ms := some b }) ∧
    (∀ st lines st' l a b, extractScan st lines = .ok st' →
        "Latency".data.isPrefixOf (stripStr l) = false →
        "Req/Sec".data.isPrefixOf (stripStr l) = true →
        (∃ p0 p1 p2 ps, splitWS (stripStr l) = p0 :: p1 :: p2 :: ps ∧
          parse_throughput p1 = .ok a ∧ parse_throughput p2 = .ok b) →
        extractScan st (lines ++ [l]) =
          .ok { st' with req_avg := some a, req_stdev := some b }) := by
  constructor
  · intro st lines st' l a b hscan hpre hex
    obtain ⟨p0, p1, p2, ps, hsp, ha, hb⟩ := hex
    have hscan' : List.foldlM extractStep st lines = Except.ok st' := hscan
    unfold extractScan
    rw [List.foldlM_append, hscan']
    show List.foldlM extractStep st' [l] = _
    rw [List.foldlM_cons, extractStep_latency hpre hsp ha hb]
    rfl
  · intro st lines st' l a b hscan hpre1 hpre2 hex
    obtain ⟨p0, p1, p2, ps, hsp, ha, hb⟩ := hex
    have hscan' : List.foldlM extractStep st lines = Except.ok st' := hscan
    unfold extractScan
    rw [List.foldlM_append, hscan']
    show List.foldlM extractStep st' [l] = _
    rw [List.foldlM_cons, extractStep_reqsec hpre1 hpre2 hsp ha hb]
    rfl

/-- Witness for C1 (amended): appending a second well-formed `Latency` line
overwrites the values of the first, and likewise for `Req/Sec`. -/
theorem C1_last_match_wins_witness :
    extractScan {} (["Latency 10ms 1ms".data] ++ ["Latency 20ms 2ms".data]) =
      .ok { latency_avg_ms := some 20, latency_stdev_ms := some 2,
            req_avg := none, req_stdev := none } ∧
    extractScan {} (["Req/Sec 100 10".data] ++ ["Req/Sec 300 30".data]) =
      .ok { latency_avg_ms := none, latency_stdev_ms := none,
            req_avg := some 300, req_stdev := some 30 } := by
  constructor
  · exact C1_last_match_wins.1 {} ["Latency 10ms 1ms".data]
      ⟨some 10, some 1, none, none⟩ "Latency 20ms 2ms".data 20 2
      (by decide) (by decide)
      ⟨"Latency".data, "20ms".data, "2ms".data, [], by decide, by decide, by decide⟩
  · exact C1_last_match_wins.2 {} ["Req/Sec 100 10".data]
      ⟨none, none, some 100, some 10⟩ "Req/Sec 300 30".data 300 30
      (by decide) (by decide) (by decide)
      ⟨"Req/Sec".data, "300".data, "30".data, [], by decide, by decide, by decide⟩

/-- C10: a line beginning with `Latency` or `Req/Sec` that has fewer than
three whitespace-separated tokens is silently skipped (no error, no field
set, later lines can still supply values), and `MissingFieldError` is raised
exactly when the input is exhausted with some field still unset. -/
theorem C10_short_lines_skipped :
    (∀ st l rest, ("Latency".data.isPrefixOf (stripStr l) = true ∨
        "Req/Sec".data.isPrefixOf (stripStr l) = true) →
        (splitWS (stripStr l)).length < 3 →
        extractScan st (l :: rest) = extractScan st rest) ∧
    extract_metrics_from_lines
      ["Latency 5ms".data, "Latency 10ms 1ms".data, "Req/Sec 100 10".data] =
      .ok (10, 1, 100, 10) ∧
    (∀ lines ns, extract_metrics_from_lines lines = .error (.missingFields ns) →
        ∃ st', extractScan {} lines = .ok st' ∧ missingOf st' = ns ∧ ns ≠ []) ∧
    (∀ lines st', extractScan {} lines = .ok st' → missingOf st' ≠ [] →
        extract_metrics_from_lines lines =
          .error (.missingFields (missingOf st'))) := by
  refine ⟨?_, by decide, ?_, ?_⟩
  · intro st l rest _ hlen
    unfold extractScan
    rw [List.foldlM_cons, extractStep_short hlen]
    rfl
  · intro lines ns h
    unfold extract_metrics_from_lines at h
    cases hscan : extractScan {} lines with
    | error e =>
      rw [hscan] at h
      injection h with h'
      have : e = .formatErr := extractScan_error hscan
      rw [this] at h'
      cases h'
    | ok st' =>
      rw [hscan] at h
      have h2 : extractFinalize st' = .error (.missingFields ns) := h
      refine ⟨st', rfl, ?_, ?_⟩
      · by_cases hmiss : missingOf st' = []
        · obtain ⟨t, hok⟩ := extractFinalize_ok hmiss
          rw [hok] at h2; cases h2
        · rw [extractFinalize_missing hmiss] at h2
          injection h2 with h'
          injection h' with h''
      · by_cases hmiss : missingOf st' = []
        · obtain ⟨t, hok⟩ := extractFinalize_ok hmiss
          rw [hok] at h2; cases h2
        · rw [extractFinalize_missing hmiss] at h2
          injection h2 with h'
          injection h' with h''
          rw [← h'']
          exact hmiss
  · intro lines st' hscan hmiss
    unfold extract_metrics_from_lines
    rw [hscan]
    show extractFinalize st' = _
    exact extractFinalize_missing hmiss

/-- Witness for C10: a short `Latency` line is skipped, and a `Req/Sec`-less
input fails naming exactly the unset fields. -/
theorem C10_short_lines_skipped_witness :
    extractScan {} ("Latency 5ms".data :: ["Latency 10ms 1ms".data]) =
      extractScan {} ["Latency 10ms 1ms".data] ∧
    (∃ st', extractScan {} ["Latency 10ms 1ms".data] = .ok st' ∧
      missingOf st' = ["req_per_sec_avg".data, "req_per_sec_stdev".data] ∧
      ["req_per_sec_avg".data, "req_per_sec_stdev".data] ≠ []) ∧
    extract_metrics_from_lines ["Latency 10ms 1ms".data] =
      .error (.missingFields
        (missingOf ⟨some 10, some 1, none, none⟩)) := by
  refine ⟨?_, ?_, ?_⟩
  · exact C10_short_lines_skipped.1 {} "Latency 5ms".data
      ["Latency 10ms 1ms".data] (Or.inl (by decide)) (by decide)
  · exact C10_short_lines_skipped.2.2.1 ["Latency 10ms 1ms".data]
      ["req_per_sec_avg".data, "req_per_sec_stdev".data] (by decide)
  · exact C10_short_lines_skipped.2.2.2 ["Latency 10ms 1ms".data]
      ⟨some 10, some 1, none, none⟩ (by decide) (by decide)

/-- C5: in `parse_aggregated_log`, a START marker while a section is open is
a `StructureError`, an END marker whose name differs from the open section's
name is a `StructureError`, end of input while a section is open is a
`StructureError`, an input producing zero sections is an `EmptyResultError`,
and one well-formed `===== a START =====` … `===== a END =====` block whose
body parses yields exactly one `WorkerStats` with identity `a`. -/
theorem C5_parse_aggregated_log :
    (∀ stats m curLines line rest n, sectionStartName line = some n →
        aggLoop stats (some m) curLines (line :: rest) =
          .error .structureErr) ∧
    (∀ stats m curLines line rest n, sectionStartName line = none →
        sectionEndName line = some n → n ≠ m →
        aggLoop stats (some m) curLines (line :: rest) =
          .error .structureErr) ∧
    (∀ stats m curLines, aggLoop stats (some m) curLines [] =
        .error .structureErr) ∧
    (∀ lines, aggLoop [] none [] lines = .ok [] →
        parse_aggregated_log lines = .error .emptyResult) ∧
    parse_aggregated_log
      ["===== a START =====".data, "Latency 10ms 1ms".data,
       "Req/Sec 100 10".data, "===== a END =====".data] =
      .ok [⟨"a".data, 10, 1, 100, 10, "a".data⟩] := by
  refine ⟨?_, ?_, ?_, ?_, by decide⟩
  · intro stats m curLines line rest n h
    simp only [aggLoop, h]
  · intro stats m curLines line rest n h1 h2 hne
    simp only [aggLoop, h1, h2]
    rw [if_pos hne]
  · intro stats m curLines
    simp only [aggLoop]
  · intro lines h
    unfold parse_aggregated_log
    rw [h]
    rfl

/-- Witness for C5: concrete instantiations discharging each hypothesis. -/
theorem C5_parse_aggregated_log_witness :
    aggLoop [] (some "a".data) [] ["===== b START =====".data] =
      .error .structureErr ∧
    aggLoop [] (some "a".data) [] ["===== b END =====".data] =
      .error .structureErr ∧
    aggLoop [] (some "a".data) [] [] = .error .structureErr ∧
    parse_aggregated_log ["hello".data] = .error .emptyResult :=
  ⟨C5_parse_aggregated_log.1 [] "a".data [] _ [] "b".data (by decide),
   C5_parse_aggregated_log.2.1 [] "a".data [] _ [] "b".data
     (by decide) (by decide) (by decide),
   C5_parse_aggregated_log.2.2.1 [] "a".data [],
   C5_parse_aggregated_log.2.2.2.1 ["hello".data] (by decide)⟩

/-! ### Branch lemmas for `evaluate` -/

lemma evaluate_compile_fail {w : World} (h : w.compileOk = false) :
    evaluate w = .ok ⟨METRICS_DEFAULTS,
      setKey [] "compile_output".data w.compileOutput⟩ := by
  simp [evaluate, h]

lemma evaluate_launch_fail {w : World} (h1 : w.compileOk = true)
    (h2 : w.launchFails = true) :
    evaluate w = .ok ⟨setKey METRICS_DEFAULTS "compile_successful".data 1,
      finallyArtifacts []
        (setKey (setKey [] "compile_output".data w.compileOutput)
          "launch_failure".data "Failed to launch servers".data)⟩ := by
  simp [evaluate, h1, h2]

lemma evaluate_wait_fail {w : World} (h1 : w.compileOk = true)
    (h2 : w.launchFails = false) (h3 : w.waitOk = false) :
    evaluate w = .ok ⟨setKey METRICS_DEFAULTS "compile_successful".data 1,
      finallyArtifacts w.serverOutput
        (setKey (setKey [] "compile_output".data w.compileOutput)
          "launch_failure".data
          "Server logs did not appear before timeout".data)⟩ := by
  simp [evaluate, h1, h2, h3]

lemma evaluate_early_exit {w : World} {c : ℤ} (h1 : w.compileOk = true)
    (h2 : w.launchFails = false) (h3 : w.waitOk = true)
    (h4 : w.pollAfterWait = some c) :
    evaluate w = .ok ⟨setKey METRICS_DEFAULTS "compile_successful".data 1,
      finallyArtifacts w.serverOutput
        (setKey (setKey [] "compile_output".data w.compileOutput)
          "launch_failure".data "launch_servers.sh exited early".data)⟩ := by
  simp [evaluate, h1, h2, h3, h4]

lemma evaluate_error_logs {w : World} (h1 : w.compileOk = true)
    (h2 : w.launchFails = false) (h3 : w.waitOk = true)
    (h4 : w.pollAfterWait = none) (h5 : w.errorLogs ≠ []) :
    evaluate w = .ok ⟨setKey METRICS_DEFAULTS "compile_successful".data 1,
      finallyArtifacts w.serverOutput
        (setKey (w.errorLogs.foldl
            (fun acc nc => setKey acc ("log_".data ++ nc.1) nc.2)
            (setKey [] "compile_output".data w.compileOutput))
          "launch_failure".data
          "Detected 'error' keyword in server logs.".data)⟩ := by
  simp [evaluate, h1, h2, h3, h4, h5]

lemma evaluate_workload_fail {w : World} (h1 : w.compileOk = true)
    (h2 : w.launchFails = false) (h3 : w.waitOk = true)
    (h4 : w.pollAfterWait = none) (h5 : w.errorLogs = [])
    (h6 : w.workloadRetcode ≠ 0) :
    evaluate w = .ok ⟨setKey METRICS_DEFAULTS "compile_successful".data 1,
      finallyArtifacts w.serverOutput
        (setKey (setKey (setKey
            (setKey [] "compile_output".data w.compileOutput)
            "workload_stdout".data w.workloadStdout)
            "workload_stderr".data w.workloadStderr)
          "workload_failure".data
          "basic-workload.sh exited with a nonzero code".data)⟩ := by
  simp [evaluate, h1, h2, h3, h4, h5, h6]

lemma evaluate_missing_files {w : World} (h1 : w.compileOk = true)
    (h2 : w.launchFails = false) (h3 : w.waitOk = true)
    (h4 : w.pollAfterWait = none) (h5 : w.errorLogs = [])
    (h6 : w.workloadRetcode = 0)
    (h7 : ¬ (w.summaryExists = true ∧ w.metricsExists = true)) :
    evaluate w = .ok ⟨setKey METRICS_DEFAULTS "compile_successful".data 1,
      finallyArtifacts w.serverOutput
        (setKey (setKey (setKey
            (setKey [] "compile_output".data w.compileOutput)
            "workload_stdout".data w.workloadStdout)
            "workload_stderr".data w.workloadStderr)
          "workload_failure".data
          "Expected workload summary files were not generated.".data)⟩ := by
  simp [evaluate, h1, h2, h3, h4, h5, h6, h7]

lemma evaluate_parse_error {w : World} {e : Err} (h1 : w.compileOk = true)
    (h2 : w.launchFails = false) (h3 : w.waitOk = true)
    (h4 : w.pollAfterWait = none) (h5 : w.errorLogs = [])
    (h6 : w.workloadRetcode = 0) (h7 : w.summaryExists = true)
    (h8 : w.metricsExists = true)
    (h9 : parse_metrics_csv w.metricsRows = .error e) :
    evaluate w = .error e := by
  simp [evaluate, h1, h2, h3, h4, h5, h6, h7, h8, h9]

lemma evaluate_success {w : World} {t l s : ℚ} (h1 : w.compileOk = true)
    (h2 : w.launchFails = false) (h3 : w.waitOk = true)
    (h4 : w.pollAfterWait = none) (h5 : w.errorLogs = [])
    (h6 : w.workloadRetcode = 0) (h7 : w.summaryExists = true)
    (h8 : w.metricsExists = true)
    (h9 : parse_metrics_csv w.metricsRows = .ok (t, l, s)) :
    evaluate w = .ok ⟨setKey (setKey (setKey (setKey
        (setKey METRICS_DEFAULTS "compile_successful".data 1)
        "average_tput".data t) "average_latency".data l)
        "total_score".data s) "run_successful".data 1,
      successArtifacts w⟩ := by
  simp [evaluate, successArtifacts, h1, h2, h3, h4, h5, h6, h7, h8, h9]

lemma lookupKey_setKey_same {α : Type} (m : List (Str × α)) (k : Str) (v : α) :
    lookupKey (setKey m k v) k = some v := by
  induction m with
  | nil => simp [setKey, lookupKey]
  | cons p rest ih =>
    obtain ⟨k', v'⟩ := p
    by_cases h : k' = k
    · simp [setKey, lookupKey, h]
    · simp [setKey, lookupKey, h, ih]

lemma lookupKey_setKey_other {α : Type} (m : List (Str × α)) {k k' : Str}
    (v : α) (h : k' ≠ k) :
    lookupKey (setKey m k v) k' = lookupKey m k' := by
  induction m with
  | nil =>
    show (if k = k' then some v else lookupKey [] k') = lookupKey [] k'
    rw [if_neg (fun he => h he.symm)]
  | cons p rest ih =>
    obtain ⟨k0, v0⟩ := p
    by_cases h0 : k0 = k
    · subst h0
      have hs : setKey ((k0, v0) :: rest) k0 v = (k0, v) :: rest := by
        unfold setKey; rw [if_pos rfl]
      rw [hs]
      show (if k0 = k' then some v else lookupKey rest k') =
        (if k0 = k' then some v0 else lookupKey rest k')
      rw [if_neg (fun he => h he.symm), if_neg (fun he => h he.symm)]
    · simp [setKey, lookupKey, h0, ih]

lemma lookupKey_finallyArtifacts {buf : List Str} {arts : List (Str × Str)}
    {k : Str} (h : k ≠ "launch_servers_output".data) :
    lookupKey (finallyArtifacts buf arts) k = lookupKey arts k := by
  unfold finallyArtifacts
  split_ifs with h1
  · exact lookupKey_setKey_other _ _ h
  · rfl

/-- Counterexample to C2 as stated: in a world where every pipeline stage
succeeds but the generated metrics CSV has zero data rows (a malformed
summary artifact), `_parse_metrics_csv` raises `ValueError` and `evaluate`
propagates the exception to its caller instead of returning an
`EvaluationResult`. -/
theorem C2_counterexample : evaluate badCsvWorld = .error .valueErr := by
  decide

/-- C2 (amended): failures of the build, launch, readiness wait, early-exit
check, error scan, workload run, and missing summary files are all converted
into a normally returned result with `run_successful = 0` and an explanatory
artifact; but a malformed metrics CSV raises `ValueError`, which `evaluate`
propagates to its caller. -/
theorem C2_evaluate_error_handling :
    (∀ w : World, w.compileOk = false → ∃ r, evaluate w = .ok r ∧
        lookupKey r.metrics "run_successful".data = some 0 ∧
        lookupKey r.artifacts "compile_output".data = some w.compileOutput) ∧
    (∀ w : World, w.compileOk = true → w.launchFails = true →
        ∃ r, evaluate w = .ok r ∧
        lookupKey r.metrics "run_successful".data = some 0 ∧
        (lookupKey r.artifacts "launch_failure".data).isSome = true) ∧
    (∀ w : World, w.compileOk = true → w.launchFails = false →
        w.waitOk = false → ∃ r, evaluate w = .ok r ∧
        lookupKey r.metrics "run_successful".data = some 0 ∧
        (lookupKey r.artifacts "launch_failure".data).isSome = true) ∧
    (∀ (w : World) (c : ℤ), w.compileOk = true → w.launchFails = false →
        w.waitOk = true → w.pollAfterWait = some c →
        ∃ r, evaluate w = .ok r ∧
        lookupKey r.metrics "run_successful".data = some 0 ∧
        (lookupKey r.artifacts "launch_failure".data).isSome = true) ∧
    (∀ w : World, w.compileOk = true → w.launchFails = false →
        w.waitOk = true → w.pollAfterWait = none → w.errorLogs ≠ [] →
        ∃ r, evaluate w = .ok r ∧
        lookupKey r.metrics "run_successful".data = some 0 ∧
        (lookupKey r.artifacts "launch_failure".data).isSome = true) ∧
    (∀ w : World, w.compileOk = true → w.launchFails = false →
        w.waitOk = true → w.pollAfterWait = none → w.errorLogs = [] →
        w.workloadRetcode ≠ 0 → ∃ r, evaluate w = .ok r ∧
        lookupKey r.metrics "run_successful".data = some 0 ∧
        (lookupKey r.artifacts "workload_failure".data).isSome = true) ∧
    (∀ w : World, w.compileOk = true → w.launchFails = false →
        w.waitOk = true → w.pollAfterWait = none → w.errorLogs = [] →
        w.workloadRetcode = 0 →
        ¬ (w.summaryExists = true ∧ w.metricsExists = true) →
        ∃ r, evaluate w = .ok r ∧
        lookupKey r.metrics "run_successful".data = some 0 ∧
        (lookupKey r.artifacts "workload_failure".data).isSome = true) ∧
    (∀ (w : World) (e : Err), w.compileOk = true → w.launchFails = false →
        w.waitOk = true → w.pollAfterWait = none → w.errorLogs = [] →
        w.workloadRetcode = 0 → w.summaryExists = true →
        w.metricsExists = true →
        parse_metrics_csv w.metricsRows = .error e →
        evaluate w = .error e) := by
  have hrun0 : lookupKey (setKey METRICS_DEFAULTS "compile_successful".data 1)
      "run_successful".data = some 0 := by decide
  have hfin : ∀ (buf : List Str) (arts : List (Str × Str)) (msg : Str) (key : Str),
      key = "launch_failure".data ∨ key = "workload_failure".data →
      (lookupKey (finallyArtifacts buf (setKey arts key msg)) key).isSome = true := by
    intro buf arts msg key hk
    rw [lookupKey_finallyArtifacts (by rcases hk with h | h <;> (subst h; decide)),
      lookupKey_setKey_same]
    rfl
  refine ⟨?_, ?_, ?_, ?_, ?_, ?_, ?_, ?_⟩
  · intro w h
    refine ⟨_, evaluate_compile_fail h, ?_, ?_⟩
    · show lookupKey METRICS_DEFAULTS "run_successful".data = some 0
      decide
    · exact lookupKey_setKey_same _ _ _
  · intro w h1 h2
    refine ⟨_, evaluate_launch_fail h1 h2, hrun0, ?_⟩
    dsimp only
    exact hfin _ _ _ _ (Or.inl rfl)
  · intro w h1 h2 h3
    refine ⟨_, evaluate_wait_fail h1 h2 h3, hrun0, ?_⟩
    dsimp only
    exact hfin _ _ _ _ (Or.inl rfl)
  · intro w c h1 h2 h3 h4
    refine ⟨_, evaluate_early_exit h1 h2 h3 h4, hrun0, ?_⟩
    dsimp only
    exact hfin _ _ _ _ (Or.inl rfl)
  · intro w h1 h2 h3 h4 h5
    refine ⟨_, evaluate_error_logs h1 h2 h3 h4 h5, hrun0, ?_⟩
    dsimp only
    exact hfin _ _ _ _ (Or.inl rfl)
  · intro w h1 h2 h3 h4 h5 h6
    refine ⟨_, evaluate_workload_fail h1 h2 h3 h4 h5 h6, hrun0, ?_⟩
    dsimp only
    exact hfin _ _ _ _ (Or.inr rfl)
  · intro w h1 h2 h3 h4 h5 h6 h7
    refine ⟨_, evaluate_missing_files h1 h2 h3 h4 h5 h6 h7, hrun0, ?_⟩
    dsimp only
    exact hfin _ _ _ _ (Or.inr rfl)
  · intro w e h1 h2 h3 h4 h5 h6 h7 h8 h9
    exact evaluate_parse_error h1 h2 h3 h4 h5 h6 h7 h8 h9

/-- Witness for C2 (amended): a concrete build failure yields a normal
result, and a concrete zero-row metrics CSV propagates the `ValueError`. -/
theorem C2_evaluate_error_handling_witness :
    (∃ r, evaluate failWorld = .ok r ∧
      lookupKey r.metrics "run_successful".data = some 0 ∧
      lookupKey r.artifacts "compile_output".data =
        some failWorld.compileOutput) ∧
    evaluate badCsvWorld = .error .valueErr :=
  ⟨C2_evaluate_error_handling.1 failWorld (by decide),
   C2_evaluate_error_handling.2.2.2.2.2.2.2 badCsvWorld .valueErr
     (by decide) (by decide) (by decide) (by decide) (by decide) (by decide)
     (by decide) (by decide) (by decide)⟩

/-- C3: whenever `evaluate` returns a result, its metrics map holds exactly
the five keys `average_tput, average_latency, total_score, run_successful,
compile_successful` (in the insertion order of `METRICS_DEFAULTS`), a failed
build leaves every metric at its default, and stopping before the metrics
CSV is parsed leaves `run_successful`, `average_tput`, `average_latency` and
`total_score` at 0.0. -/
theorem C3_metrics_contract :
    ∀ (w : World) (r : EvaluationResult), evaluate w = .ok r →
      r.metrics.map Prod.fst =
        ["average_tput".data, "average_latency".data, "total_score".data,
         "run_successful".data, "compile_successful".data] ∧
      (w.compileOk = false → r.metrics = METRICS_DEFAULTS) ∧
      (stopsBeforeParse w →
        lookupKey r.metrics "run_successful".data = some 0 ∧
        lookupKey r.metrics "average_tput".data = some 0 ∧
        lookupKey r.metrics "average_latency".data = some 0 ∧
        lookupKey r.metrics "total_score".data = some 0) := by
  intro w r he
  have hM0keys : METRICS_DEFAULTS.map Prod.fst =
      ["average_tput".data, "average_latency".data, "total_score".data,
       "run_successful".data, "compile_successful".data] := by decide
  have hM0run : lookupKey METRICS_DEFAULTS "run_successful".data = some 0 ∧
      lookupKey METRICS_DEFAULTS "average_tput".data = some 0 ∧
      lookupKey METRICS_DEFAULTS "average_latency".data = some 0 ∧
      lookupKey METRICS_DEFAULTS "total_score".data = some 0 := by decide
  have hM1keys : (setKey METRICS_DEFAULTS "compile_successful".data 1).map
      Prod.fst =
      ["average_tput".data, "average_latency".data, "total_score".data,
       "run_successful".data, "compile_successful".data] := by decide
  have hM1run : lookupKey (setKey METRICS_DEFAULTS "compile_successful".data 1)
        "run_successful".data = some 0 ∧
      lookupKey (setKey METRICS_DEFAULTS "compile_successful".data 1)
        "average_tput".data = some 0 ∧
      lookupKey (setKey METRICS_DEFAULTS "compile_successful".data 1)
        "average_latency".data = some 0 ∧
      lookupKey (setKey METRICS_DEFAULTS "compile_successful".data 1)
        "total_score".data = some 0 := by decide
  cases hc1 : w.compileOk with
  | false =>
    have := (evaluate_compile_fail hc1).symm.trans he
    injection this with hr
    subst hr
    exact ⟨hM0keys, fun _ => rfl, fun _ => hM0run⟩
  | true =>
  cases hc2 : w.launchFails with
  | true =>
    have := (evaluate_launch_fail hc1 hc2).symm.trans he
    injection this with hr
    subst hr
    exact ⟨hM1keys, fun h => absurd h (by decide), fun _ => hM1run⟩
  | false =>
  cases hc3 : w.waitOk with
  | false =>
    have := (evaluate_wait_fail hc1 hc2 hc3).symm.trans he
    injection this with hr
    subst hr
    exact ⟨hM1keys, fun h => absurd h (by decide), fun _ => hM1run⟩
  | true =>
  cases hc4 : w.pollAfterWait with
  | some c =>
    have := (evaluate_early_exit hc1 hc2 hc3 hc4).symm.trans he
    injection this with hr
    subst hr
    exact ⟨hM1keys, fun h => absurd h (by decide), fun _ => hM1run⟩
  | none =>
  cases hc5 : w.errorLogs with
  | cons x xs =>
    have := (evaluate_error_logs hc1 hc2 hc3 hc4 (by rw [hc5]; simp)).symm.trans he
    injection this with hr
    subst hr
    exact ⟨hM1keys, fun h => absurd h (by decide), fun _ => hM1run⟩
  | nil =>
  by_cases hc6 : w.workloadRetcode = 0
  case neg =>
    have := (evaluate_workload_fail hc1 hc2 hc3 hc4 hc5 hc6).symm.trans he
    injection this with hr
    subst hr
    exact ⟨hM1keys, fun h => absurd h (by decide), fun _ => hM1run⟩
  case pos =>
  by_cases hc7 : w.summaryExists = true ∧ w.metricsExists = true
  case neg =>
    have := (evaluate_missing_files hc1 hc2 hc3 hc4 hc5 hc6 hc7).symm.trans he
    injection this with hr
    subst hr
    exact ⟨hM1keys, fun h => absurd h (by decide), fun _ => hM1run⟩
  case pos =>
  obtain ⟨hc7a, hc7b⟩ := hc7
  cases hp : parse_metrics_csv w.metricsRows with
  | error e =>
    have := (evaluate_parse_error hc1 hc2 hc3 hc4 hc5 hc6 hc7a hc7b hp).symm.trans he
    cases this
  | ok tls =>
    obtain ⟨t, l, s⟩ := tls
    have := (evaluate_success hc1 hc2 hc3 hc4 hc5 hc6 hc7a hc7b hp).symm.trans he
    injection this with hr
    subst hr
    refine ⟨rfl, fun h => absurd h (by decide), fun hs => ?_⟩
    exfalso
    rcases hs with h | h | h | h | h | h | h
    · exact h hc1
    · rw [hc2] at h; cases h
    · exact h hc3
    · exact h hc4
    · exact h hc5
    · exact h hc6
    · exact h ⟨hc7a, hc7b⟩

/-- Witness for C3: concrete instantiations discharging each hypothesis. -/
theorem C3_metrics_contract_witness :
    (⟨METRICS_DEFAULTS, setKey [] "compile_output".data "boom".data⟩ :
        EvaluationResult).metrics.map Prod.fst =
      ["average_tput".data, "average_latency".data, "total_score".data,
       "run_successful".data, "compile_successful".data] ∧
    lookupKey (⟨METRICS_DEFAULTS,
        setKey [] "compile_output".data "boom".data⟩ :
        EvaluationResult).metrics "run_successful".data = some 0 := by
  have h := C3_metrics_contract failWorld
    ⟨METRICS_DEFAULTS, setKey [] "compile_output".data "boom".data⟩
    (by decide)
  exact ⟨h.1, (h.2.2 (by decide)).1⟩

end

end S2P
